import Mathlib

/-!
# Verification of the `lib-events` queue/event library

Shallow embedding of the library's publisher (`dispatch`), consumer
(`getAttributes` / `mapAttributes` / bounded `poll`), handler-registry queue
client (`SqsQueueClient`) and the base64-of-JSON attribute codec
(`encodeJson` / `decodeJson`), together with proofs of the specified
properties.

Strings are modelled as `List Char` (named `Str`) so that sizes and
concatenations are plain list operations.  JavaScript `number` values are
modelled as `Option Int`: `some n` is a finite integer and `none` models
`NaN`; floating point fractions are outside the model.
-/

/-- Strings of the model: plain lists of characters. -/
abbrev Str := List Char

/-! ## JSON values

The model of the JSON-representable values handled by `JSON.stringify` /
`JSON.parse`.  Arrays and object field lists are mutual inductives (rather
than `List Json`) so that structural recursion and induction stay simple. -/

mutual
/-- A JSON value.  Numbers are modelled as integers. -/
inductive Json where
  | null : Json
  | boolean (b : Bool) : Json
  | num (n : Int) : Json
  | str (s : Str) : Json
  | arr (elems : JsonArr) : Json
  | obj (fields : JsonObj) : Json

/-- The list of elements of a JSON array. -/
inductive JsonArr where
  | nil : JsonArr
  | cons (hd : Json) (tl : JsonArr) : JsonArr

/-- The ordered field list of a JSON object. -/
inductive JsonObj where
  | nil : JsonObj
  | cons (key : Str) (val : Json) (tl : JsonObj) : JsonObj
end

deriving instance DecidableEq for Json, JsonArr, JsonObj

/-- Property lookup on an object's field list (first match wins, as in the
JavaScript objects produced by `JSON.parse`, which keeps one entry per key). -/
def JsonObj.lookup : JsonObj → Str → Option Json
  | .nil, _ => none
  | .cons k v t, name => if k = name then some v else t.lookup name

/-- JavaScript property access `value.name`: `none` models `undefined`
(also for non-object values). -/
def Json.objGet : Json → Str → Option Json
  | .obj fields, name => fields.lookup name
  | _, _ => none

/-- JavaScript truthiness of a JSON value (`if (v)`): `null`, `false`, `0`
and `""` are falsy; arrays and objects are always truthy. -/
def Json.jsTruthy : Json → Bool
  | .null => false
  | .boolean b => b
  | .num n => n ≠ 0
  | .str s => s ≠ []
  | .arr _ => true
  | .obj _ => true

/-! ## Decimal digits: printing and parsing

`Number.prototype.toString()` for integral values and the integer part of
`JSON.parse` / `Number(...)` number handling. -/

/-- The character for a decimal digit value. -/
def digitChar : Nat → Char
  | 0 => '0' | 1 => '1' | 2 => '2' | 3 => '3' | 4 => '4'
  | 5 => '5' | 6 => '6' | 7 => '7' | 8 => '8' | _ => '9'

/-- Is this character a decimal digit? -/
def isDigitChar (c : Char) : Bool := 48 ≤ c.toNat ∧ c.toNat ≤ 57

/-- The numeric value of a decimal digit character. -/
def digitVal (c : Char) : Nat := c.toNat - 48

/-- Decimal digits of a natural number, most significant first.  The fuel
argument keeps the recursion structural so that the kernel can evaluate it;
`fuel = n` always suffices. -/
def natToCharsAux : Nat → Nat → Str
  | 0, n => [digitChar n]
  | fuel + 1, n => if n < 10 then [digitChar n] else natToCharsAux fuel (n / 10) ++ [digitChar (n % 10)]

/-- Decimal representation of a natural number, e.g. `147 ↦ "147"`. -/
def natToChars (n : Nat) : Str := natToCharsAux n n

/-- `Number.prototype.toString()` for an integral value (`-5 ↦ "-5"`). -/
def intToChars (i : Int) : Str :=
  if i < 0 then '-' :: natToChars i.natAbs else natToChars i.natAbs

/-- Consume a maximal run of decimal digits, accumulating their value. -/
def parseNatGo (acc : Nat) : Str → Nat × Str
  | [] => (acc, [])
  | c :: cs => if isDigitChar c then parseNatGo (acc * 10 + digitVal c) cs else (acc, c :: cs)

/-- Parse a (non-empty) run of decimal digits. -/
def parseNat : Str → Option (Nat × Str)
  | [] => none
  | c :: cs => if isDigitChar c then some (parseNatGo 0 (c :: cs)) else none

/-- Parse an optionally-signed integer literal. -/
def parseInt : Str → Option (Int × Str)
  | [] => none
  | c :: cs =>
    if c = '-' then (parseNat cs).map (fun p => (-(p.1 : Int), p.2))
    else (parseNat (c :: cs)).map (fun p => ((p.1 : Int), p.2))

theorem digitChar_spec : ∀ n < 10, isDigitChar (digitChar n) = true ∧ digitVal (digitChar n) = n := by
  decide

theorem natToCharsAux_fuel (n : Nat) : ∀ fuel fuel', n ≤ fuel → n ≤ fuel' →
    natToCharsAux fuel n = natToCharsAux fuel' n := by
  induction n using Nat.strong_induction_on with
  | _ n ih =>
    intro fuel fuel' h h'
    match fuel, fuel' with
    | 0, 0 => rfl
    | 0, f' + 1 =>
      interval_cases n
      simp [natToCharsAux]
    | f + 1, 0 =>
      interval_cases n
      simp [natToCharsAux]
    | f + 1, f' + 1 =>
      show natToCharsAux (f + 1) n = natToCharsAux (f' + 1) n
      rw [natToCharsAux, natToCharsAux]
      by_cases h10 : n < 10
      · simp [h10]
      · simp only [if_neg h10]
        rw [ih (n / 10) (by omega) f f' (by omega) (by omega)]

theorem natToCharsAux_eq (fuel n : Nat) (h : n ≤ fuel) : natToCharsAux fuel n = natToChars n :=
  natToCharsAux_fuel n fuel n h le_rfl

theorem natToChars_lt (n : Nat) (h : n < 10) : natToChars n = [digitChar n] := by
  unfold natToChars
  cases n with
  | zero => rfl
  | succ m => rw [natToCharsAux, if_pos h]

theorem natToChars_ge (n : Nat) (h : 10 ≤ n) :
    natToChars n = natToChars (n / 10) ++ [digitChar (n % 10)] := by
  conv_lhs => rw [natToChars]
  match hn : n, h with
  | m + 1, _ =>
    rw [natToCharsAux, if_neg (by omega)]
    rw [natToCharsAux_eq m (_ / 10) (by omega)]

theorem natToChars_head (n : Nat) :
    ∃ c t, natToChars n = c :: t ∧ isDigitChar c = true := by
  induction n using Nat.strong_induction_on with
  | _ n ih =>
    by_cases h : n < 10
    · exact ⟨digitChar n, [], natToChars_lt n h, (digitChar_spec n h).1⟩
    · obtain ⟨c, t, hct, hd⟩ := ih (n / 10) (by omega)
      exact ⟨c, t ++ [digitChar (n % 10)], by rw [natToChars_ge n (by omega), hct]; rfl, hd⟩

theorem parseNatGo_append (n : Nat) : ∀ acc rest,
    parseNatGo acc (natToChars n ++ rest) =
      parseNatGo (acc * 10 ^ (natToChars n).length + n) rest := by
  induction n using Nat.strong_induction_on with
  | _ n ih =>
    intro acc rest
    by_cases h : n < 10
    · rw [natToChars_lt n h]
      simp only [List.cons_append, List.nil_append, parseNatGo, (digitChar_spec n h).1,
        if_true, (digitChar_spec n h).2, List.length_cons, List.length_nil]
      norm_num
    · rw [natToChars_ge n (by omega)]
      rw [List.append_assoc, ih (n / 10) (by omega)]
      simp only [List.cons_append, List.nil_append, parseNatGo,
        (digitChar_spec (n % 10) (by omega)).1, if_true,
        (digitChar_spec (n % 10) (by omega)).2, List.length_append,
        List.length_cons, List.length_nil]
      have : (acc * 10 ^ (natToChars (n / 10)).length + n / 10) * 10 + n % 10 =
          acc * 10 ^ ((natToChars (n / 10)).length + 1) + n := by
        rw [pow_succ]
        have := Nat.div_add_mod n 10
        ring_nf
        omega
      rw [this]
      simp

/-- A continuation on which a digit run stops: empty or headed by a non-digit. -/
def stopsNum : Str → Prop
  | [] => True
  | c :: _ => isDigitChar c = false

theorem parseNatGo_stop (acc : Nat) (rest : Str) (h : stopsNum rest) :
    parseNatGo acc rest = (acc, rest) := by
  cases rest with
  | nil => rfl
  | cons c cs =>
    have h' : isDigitChar c = false := h
    simp [parseNatGo, h']

theorem parseNat_natToChars (n : Nat) (rest : Str) (h : stopsNum rest) :
    parseNat (natToChars n ++ rest) = some (n, rest) := by
  obtain ⟨c, t, hct, hd⟩ := natToChars_head n
  rw [hct, List.cons_append, parseNat, hd, if_pos rfl,
    ← List.cons_append, ← hct, parseNatGo_append, parseNatGo_stop _ _ h]
  norm_num

theorem natToChars_head_ne (n : Nat) (c : Char) (hc : isDigitChar c = false) :
    ∀ t, natToChars n ≠ c :: t := by
  intro t hEq
  obtain ⟨c', t', hct, hd⟩ := natToChars_head n
  rw [hct] at hEq
  cases hEq
  rw [hd] at hc
  cases hc

theorem parseInt_intToChars (i : Int) (rest : Str) (h : stopsNum rest) :
    parseInt (intToChars i ++ rest) = some (i, rest) := by
  by_cases hneg : i < 0
  · rw [intToChars, if_pos hneg]
    simp only [List.cons_append, parseInt]
    rw [parseNat_natToChars _ _ h]
    have : (i.natAbs : Int) = -i := by omega
    simp [Option.map, this]
  · rw [intToChars, if_neg hneg]
    obtain ⟨c, t, hct, hd⟩ := natToChars_head i.natAbs
    have hcm : c ≠ '-' := by
      intro hEq
      rw [hEq] at hd
      simp [isDigitChar] at hd
    rw [hct, List.cons_append, parseInt, if_neg hcm,
      ← List.cons_append, ← hct, parseNat_natToChars _ _ h]
    have : (i.natAbs : Int) = i := by omega
    simp [Option.map, this]

/-! ## `JSON.stringify`

Canonical serialization as performed by `JSON.stringify` (no indentation):
`"` and `\` are escaped with a backslash, the control characters BS, TAB,
LF, FF, CR use their short escapes, all other control characters use
`\u00XX`, and everything else is emitted verbatim. -/

/-- The character for a hexadecimal digit value (lower case, as emitted by
`JSON.stringify`). -/
def hexDigitChar : Nat → Char
  | 0 => '0' | 1 => '1' | 2 => '2' | 3 => '3' | 4 => '4' | 5 => '5'
  | 6 => '6' | 7 => '7' | 8 => '8' | 9 => '9' | 10 => 'a' | 11 => 'b'
  | 12 => 'c' | 13 => 'd' | 14 => 'e' | _ => 'f'

/-- Escape one character of a JSON string literal. -/
def escapeChar (c : Char) : Str :=
  if c.toNat = 34 then ['\\', '"']
  else if c.toNat = 92 then ['\\', '\\']
  else if c.toNat = 8 then ['\\', 'b']
  else if c.toNat = 9 then ['\\', 't']
  else if c.toNat = 10 then ['\\', 'n']
  else if c.toNat = 12 then ['\\', 'f']
  else if c.toNat = 13 then ['\\', 'r']
  else if c.toNat < 32 then ['\\', 'u', '0', '0', hexDigitChar (c.toNat / 16), hexDigitChar (c.toNat % 16)]
  else [c]

/-- Escape the body of a JSON string literal. -/
def escapeStr : Str → Str
  | [] => []
  | c :: cs => escapeChar c ++ escapeStr cs

/-- A quoted JSON string literal. -/
def quoteStr (s : Str) : Str := '"' :: escapeStr s ++ ['"']

mutual
/-- `JSON.stringify` of a value. -/
def Json.stringify : Json → Str
  | .null => ['n', 'u', 'l', 'l']
  | .boolean true => ['t', 'r', 'u', 'e']
  | .boolean false => ['f', 'a', 'l', 's', 'e']
  | .num n => intToChars n
  | .str s => quoteStr s
  | .arr elems => '[' :: stringifyArrBody elems ++ [']']
  | .obj fields => '{' :: stringifyObjBody fields ++ ['}']

/-- Comma-separated renderings of array elements. -/
def stringifyArrBody : JsonArr → Str
  | .nil => []
  | .cons h t => h.stringify ++ stringifyArrTail t

/-- The remaining elements of an array, each preceded by a comma. -/
def stringifyArrTail : JsonArr → Str
  | .nil => []
  | .cons h t => ',' :: h.stringify ++ stringifyArrTail t

/-- Comma-separated `"key":value` renderings of object fields. -/
def stringifyObjBody : JsonObj → Str
  | .nil => []
  | .cons k v t => quoteStr k ++ ':' :: v.stringify ++ stringifyObjTail t

/-- The remaining fields of an object, each preceded by a comma. -/
def stringifyObjTail : JsonObj → Str
  | .nil => []
  | .cons k v t => ',' :: quoteStr k ++ ':' :: v.stringify ++ stringifyObjTail t
end

example : (Json.obj (.cons ['a'] (.num 1) .nil)).stringify = "\x7b\"a\":1\x7d".toList := by decide

/-! ## `JSON.parse`

A recursive-descent parser for the canonical JSON texts produced by
`JSON.stringify` (a model of `JSON.parse` restricted to texts without
insignificant whitespace, which is all the library ever feeds it).  The
`fuel` argument makes the mutual recursion structural; the entry point
`parseTop` supplies fuel proportional to the input length, which is always
sufficient. -/

/-- Require an exact run of characters, returning the remaining input. -/
def expectChars : Str → Str → Option Str
  | [], s => some s
  | _ :: _, [] => none
  | e :: es, c :: cs => if c = e then expectChars es cs else none

/-- Value of one hexadecimal digit (upper or lower case). -/
def parseHexDigit (c : Char) : Option Nat :=
  if 48 ≤ c.toNat ∧ c.toNat ≤ 57 then some (c.toNat - 48)
  else if 97 ≤ c.toNat ∧ c.toNat ≤ 102 then some (c.toNat - 87)
  else if 65 ≤ c.toNat ∧ c.toNat ≤ 70 then some (c.toNat - 55)
  else none

/-- A `Char` from a code point, `none` when the code point is invalid. -/
def charOfCode (n : Nat) : Option Char :=
  if h : n.isValidChar then some (Char.ofNatAux n h) else none

theorem charOfCode_toNat (c : Char) : charOfCode c.toNat = some c := by
  have hv : c.toNat.isValidChar := c.valid
  rw [charOfCode, dif_pos hv]
  congr 1

/-- Parse the body of a JSON string literal (after the opening quote),
up to and including the closing quote. -/
def parseStringBody : Str → Option (Str × Str)
  | [] => none
  | c :: cs =>
    if c.toNat = 34 then some ([], cs)
    else if c.toNat = 92 then
      match cs with
      | [] => none
      | e :: cs' =>
        if e = '"' then (parseStringBody cs').map (fun p => ('"' :: p.1, p.2))
        else if e = '\\' then (parseStringBody cs').map (fun p => ('\\' :: p.1, p.2))
        else if e = '/' then (parseStringBody cs').map (fun p => ('/' :: p.1, p.2))
        else if e = 'b' then (parseStringBody cs').map (fun p => (Char.ofNat 8 :: p.1, p.2))
        else if e = 't' then (parseStringBody cs').map (fun p => (Char.ofNat 9 :: p.1, p.2))
        else if e = 'n' then (parseStringBody cs').map (fun p => (Char.ofNat 10 :: p.1, p.2))
        else if e = 'f' then (parseStringBody cs').map (fun p => (Char.ofNat 12 :: p.1, p.2))
        else if e = 'r' then (parseStringBody cs').map (fun p => (Char.ofNat 13 :: p.1, p.2))
        else if e = 'u' then
          match cs' with
          | h1 :: h2 :: h3 :: h4 :: cs'' =>
            match parseHexDigit h1, parseHexDigit h2, parseHexDigit h3, parseHexDigit h4 with
            | some d1, some d2, some d3, some d4 =>
              match charOfCode (((d1 * 16 + d2) * 16 + d3) * 16 + d4) with
              | some ch => (parseStringBody cs'').map (fun p => (ch :: p.1, p.2))
              | none => none
            | _, _, _, _ => none
          | _ => none
        else none
    else (parseStringBody cs).map (fun p => (c :: p.1, p.2))

/-- Require a `:` and return the remaining input. -/
def expectColon : Str → Option Str
  | ':' :: r => some r
  | _ => none

mutual
/-- Parse one JSON value. -/
def parseJson : Nat → Str → Option (Json × Str)
  | 0, _ => none
  | _ + 1, [] => none
  | fuel + 1, c :: cs =>
    if c = 'n' then (expectChars ['u', 'l', 'l'] cs).map (fun r => (Json.null, r))
    else if c = 't' then (expectChars ['r', 'u', 'e'] cs).map (fun r => (Json.boolean true, r))
    else if c = 'f' then (expectChars ['a', 'l', 's', 'e'] cs).map (fun r => (Json.boolean false, r))
    else if c = '"' then (parseStringBody cs).map (fun p => (Json.str p.1, p.2))
    else if c = '[' then (parseArrBody fuel cs).map (fun p => (Json.arr p.1, p.2))
    else if c = '{' then (parseObjBody fuel cs).map (fun p => (Json.obj p.1, p.2))
    else (parseInt (c :: cs)).map (fun p => (Json.num p.1, p.2))

/-- Parse the inside of an array (after `[`), consuming the closing `]`. -/
def parseArrBody : Nat → Str → Option (JsonArr × Str)
  | 0, _ => none
  | _ + 1, [] => none
  | fuel + 1, c :: cs =>
    if c = ']' then some (.nil, cs)
    else (parseJson fuel (c :: cs)).bind fun p =>
      (parseArrTail fuel p.2).map fun q => (JsonArr.cons p.1 q.1, q.2)

/-- After one array element: `,` and another element, or the closing `]`. -/
def parseArrTail : Nat → Str → Option (JsonArr × Str)
  | 0, _ => none
  | _ + 1, [] => none
  | fuel + 1, c :: cs =>
    if c = ']' then some (.nil, cs)
    else if c = ',' then (parseJson fuel cs).bind fun p =>
      (parseArrTail fuel p.2).map fun q => (JsonArr.cons p.1 q.1, q.2)
    else none

/-- Parse the inside of an object (after `{`), consuming the closing `}`. -/
def parseObjBody : Nat → Str → Option (JsonObj × Str)
  | 0, _ => none
  | _ + 1, [] => none
  | fuel + 1, c :: cs =>
    if c = '}' then some (.nil, cs)
    else if c = '"' then
      (parseStringBody cs).bind fun kp =>
      (expectColon kp.2).bind fun r1 =>
      (parseJson fuel r1).bind fun vp =>
      (parseObjTail fuel vp.2).map fun q => (JsonObj.cons kp.1 vp.1 q.1, q.2)
    else none

/-- After one object field: `,` and another field, or the closing `}`. -/
def parseObjTail : Nat → Str → Option (JsonObj × Str)
  | 0, _ => none
  | _ + 1, [] => none
  | fuel + 1, c :: cs =>
    if c = '}' then some (.nil, cs)
    else if c = ',' then
      (expectChars ['"'] cs).bind fun cs' =>
      (parseStringBody cs').bind fun kp =>
      (expectColon kp.2).bind fun r1 =>
      (parseJson fuel r1).bind fun vp =>
      (parseObjTail fuel vp.2).map fun q => (JsonObj.cons kp.1 vp.1 q.1, q.2)
    else none
end

/-- `JSON.parse`: parse a complete JSON text; the whole input must be
consumed. -/
def parseTop (s : Str) : Option Json :=
  match parseJson (2 * s.length + 2) s with
  | some (v, []) => some v
  | _ => none

example : parseTop "\x7b\"a\":1\x7d".toList = some (Json.obj (.cons ['a'] (.num 1) .nil)) := by decide
example : parseTop "\x7b\"Records\":[\x7b\"foo\":1\x7d]\x7d".toList =
    some (Json.obj (.cons "Records".toList
      (.arr (.cons (.obj (.cons "foo".toList (.num 1) .nil)) .nil)) .nil)) := by decide

/-! ## Round trip: `parseTop (stringify v) = some v` -/

mutual
/-- Parser fuel needed for a value. -/
def measJ : Json → Nat
  | .null => 1
  | .boolean _ => 1
  | .num _ => 1
  | .str _ => 1
  | .arr xs => 1 + measA xs
  | .obj fs => 1 + measO fs

/-- Parser fuel needed for an array body. -/
def measA : JsonArr → Nat
  | .nil => 1
  | .cons h t => 1 + measJ h + measA t

/-- Parser fuel needed for an object body. -/
def measO : JsonObj → Nat
  | .nil => 1
  | .cons _ v t => 1 + measJ v + measO t
end

mutual
theorem measJ_le (v : Json) : measJ v + 1 ≤ 2 * v.stringify.length := by
  cases v with
  | null => simp [measJ, Json.stringify]
  | boolean b => cases b <;> simp [measJ, Json.stringify]
  | num n =>
    have ⟨c, t, hct, _⟩ := natToChars_head n.natAbs
    have : 1 ≤ (intToChars n).length := by
      rw [intToChars]
      split <;> simp [hct]
    simp only [measJ, Json.stringify]
    omega
  | str s => simp [measJ, Json.stringify, quoteStr]
  | arr xs =>
    have h := measA_body_le xs
    simp only [measJ, Json.stringify, List.length_cons, List.length_append]
    simp only [List.length_cons, List.length_nil]
    omega
  | obj fs =>
    have h := measO_body_le fs
    simp only [measJ, Json.stringify, List.length_cons, List.length_append]
    simp only [List.length_cons, List.length_nil]
    omega

theorem measA_body_le (xs : JsonArr) : measA xs ≤ 2 * (stringifyArrBody xs).length + 2 := by
  cases xs with
  | nil => simp [measA, stringifyArrBody]
  | cons h t =>
    have h1 := measJ_le h
    have h2 := measA_tail_le t
    simp only [measA, stringifyArrBody, List.length_append]
    omega

theorem measA_tail_le (xs : JsonArr) : measA xs ≤ 2 * (stringifyArrTail xs).length + 1 := by
  cases xs with
  | nil => simp [measA, stringifyArrTail]
  | cons h t =>
    have h1 := measJ_le h
    have h2 := measA_tail_le t
    simp only [measA, stringifyArrTail, List.length_cons, List.length_append]
    omega

theorem measO_body_le (fs : JsonObj) : measO fs ≤ 2 * (stringifyObjBody fs).length + 2 := by
  cases fs with
  | nil => simp [measO, stringifyObjBody]
  | cons k v t =>
    have h1 := measJ_le v
    have h2 := measO_tail_le t
    simp only [measO, stringifyObjBody, List.length_append, List.length_cons]
    omega

theorem measO_tail_le (fs : JsonObj) : measO fs ≤ 2 * (stringifyObjTail fs).length + 1 := by
  cases fs with
  | nil => simp [measO, stringifyObjTail]
  | cons k v t =>
    have h1 := measJ_le v
    have h2 := measO_tail_le t
    simp only [measO, stringifyObjTail, List.length_cons, List.length_append]
    omega
end

theorem char_eq_of_toNat (c d : Char) (h : c.toNat = d.toNat) : c = d := by
  have h1 := charOfCode_toNat c
  have h2 := charOfCode_toNat d
  rw [h, h2] at h1
  injection h1 with h1
  exact h1.symm

theorem hexDigit_spec : ∀ m < 16, parseHexDigit (hexDigitChar m) = some m := by decide

theorem expectChars_append (p : Str) : ∀ rest, expectChars p (p ++ rest) = some rest := by
  induction p with
  | nil => intro rest; rfl
  | cons e es ih => intro rest; simp [expectChars, ih]

theorem parseStringBody_escape (s : Str) : ∀ rest : Str,
    parseStringBody (escapeStr s ++ '"' :: rest) = some (s, rest) := by
  induction s with
  | nil =>
    intro rest
    rw [escapeStr, List.nil_append, parseStringBody.eq_def]
    simp +decide
  | cons c cs ih =>
    intro rest
    rw [escapeStr, List.append_assoc]
    by_cases h34 : c.toNat = 34
    · obtain rfl : c = '"' := char_eq_of_toNat c '"' (by rw [h34]; rfl)
      rw [escapeChar, if_pos h34]
      simp only [List.cons_append, List.nil_append]
      rw [parseStringBody.eq_def]
      simp +decide [ih]
    · by_cases h92 : c.toNat = 92
      · obtain rfl : c = '\\' := char_eq_of_toNat c '\\' (by rw [h92]; rfl)
        rw [escapeChar, if_neg h34, if_pos h92]
        simp only [List.cons_append, List.nil_append]
        rw [parseStringBody.eq_def]
        simp +decide [ih]
      · by_cases h8 : c.toNat = 8
        · obtain rfl : c = Char.ofNat 8 := char_eq_of_toNat c (Char.ofNat 8) (by rw [h8]; rfl)
          rw [escapeChar, if_neg h34, if_neg h92, if_pos h8]
          simp only [List.cons_append, List.nil_append]
          rw [parseStringBody.eq_def]
          simp +decide [ih]
        · by_cases h9 : c.toNat = 9
          · obtain rfl : c = Char.ofNat 9 := char_eq_of_toNat c (Char.ofNat 9) (by rw [h9]; rfl)
            rw [escapeChar, if_neg h34, if_neg h92, if_neg h8, if_pos h9]
            simp only [List.cons_append, List.nil_append]
            rw [parseStringBody.eq_def]
            simp +decide [ih]
          · by_cases h10 : c.toNat = 10
            · obtain rfl : c = Char.ofNat 10 := char_eq_of_toNat c (Char.ofNat 10) (by rw [h10]; rfl)
              rw [escapeChar, if_neg h34, if_neg h92, if_neg h8, if_neg h9, if_pos h10]
              simp only [List.cons_append, List.nil_append]
              rw [parseStringBody.eq_def]
              simp +decide [ih]
            · by_cases h12 : c.toNat = 12
              · obtain rfl : c = Char.ofNat 12 := char_eq_of_toNat c (Char.ofNat 12) (by rw [h12]; rfl)
                rw [escapeChar, if_neg h34, if_neg h92, if_neg h8, if_neg h9, if_neg h10, if_pos h12]
                simp only [List.cons_append, List.nil_append]
                rw [parseStringBody.eq_def]
                simp +decide [ih]
              · by_cases h13 : c.toNat = 13
                · obtain rfl : c = Char.ofNat 13 := char_eq_of_toNat c (Char.ofNat 13) (by rw [h13]; rfl)
                  rw [escapeChar, if_neg h34, if_neg h92, if_neg h8, if_neg h9, if_neg h10,
                    if_neg h12, if_pos h13]
                  simp only [List.cons_append, List.nil_append]
                  rw [parseStringBody.eq_def]
                  simp +decide [ih]
                · by_cases hctl : c.toNat < 32
                  · rw [escapeChar, if_neg h34, if_neg h92, if_neg h8, if_neg h9, if_neg h10,
                      if_neg h12, if_neg h13, if_pos hctl]
                    simp only [List.cons_append, List.nil_append]
                    rw [parseStringBody.eq_def]
                    simp +decide [hexDigit_spec (c.toNat / 16) (by omega),
                      hexDigit_spec (c.toNat % 16) (by omega)]
                    rw [show parseHexDigit '0' = some 0 from by decide]
                    simp only []
                    rw [show ((0 * 16 + 0) * 16 + c.toNat / 16) * 16 + c.toNat % 16 = c.toNat by omega,
                      charOfCode_toNat]
                    simp [ih]
                  · rw [escapeChar, if_neg h34, if_neg h92, if_neg h8, if_neg h9, if_neg h10,
                      if_neg h12, if_neg h13, if_neg hctl]
                    simp only [List.cons_append, List.nil_append]
                    rw [parseStringBody.eq_def]
                    simp [h34, h92, ih]

theorem measJ_pos (v : Json) : 1 ≤ measJ v := by
  cases v <;> simp [measJ]

theorem measA_pos (xs : JsonArr) : 1 ≤ measA xs := by
  cases xs <;> (simp only [measA]; omega)

theorem measO_pos (fs : JsonObj) : 1 ≤ measO fs := by
  cases fs <;> (simp only [measO]; omega)

theorem intToChars_head (i : Int) :
    ∃ c t, intToChars i = c :: t ∧ (c = '-' ∨ isDigitChar c = true) := by
  obtain ⟨c, t, hct, hd⟩ := natToChars_head i.natAbs
  by_cases hneg : i < 0
  · exact ⟨'-', natToChars i.natAbs, by rw [intToChars, if_pos hneg], Or.inl rfl⟩
  · exact ⟨c, t, by rw [intToChars, if_neg hneg, hct], Or.inr hd⟩

/-- The head emitted for a JSON number is never one of the structural
delimiters or literal/string openers checked before the number branch. -/
theorem numHead_cases (c : Char) (h : c = '-' ∨ isDigitChar c = true) :
    c ≠ 'n' ∧ c ≠ 't' ∧ c ≠ 'f' ∧ c ≠ '"' ∧ c ≠ '[' ∧ c ≠ '{' ∧ c ≠ ']' ∧ c ≠ '}' ∧ c ≠ ',' := by
  rcases h with rfl | hd
  · refine ⟨?_, ?_, ?_, ?_, ?_, ?_, ?_, ?_, ?_⟩ <;> decide
  · have hn := of_decide_eq_true hd
    simp only [isDigitChar, decide_eq_true_eq] at hd
    refine ⟨?_, ?_, ?_, ?_, ?_, ?_, ?_, ?_, ?_⟩ <;>
      (intro hEq; subst hEq; revert hd; decide)

/-- The first character of a rendered JSON value is never `]`, `}` or `,`. -/
theorem stringify_head (v : Json) :
    ∃ c t, v.stringify = c :: t ∧ c ≠ ']' ∧ c ≠ '}' ∧ c ≠ ',' := by
  cases v with
  | null => exact ⟨'n', _, rfl, by decide, by decide, by decide⟩
  | boolean b =>
    cases b with
    | false => exact ⟨'f', _, rfl, by decide, by decide, by decide⟩
    | true => exact ⟨'t', _, rfl, by decide, by decide, by decide⟩
  | num n =>
    obtain ⟨c, t, hct, hd⟩ := intToChars_head n
    have h := numHead_cases c hd
    exact ⟨c, t, by rw [Json.stringify, hct], h.2.2.2.2.2.2.1, h.2.2.2.2.2.2.2.1, h.2.2.2.2.2.2.2.2⟩
  | str s => exact ⟨'"', _, rfl, by decide, by decide, by decide⟩
  | arr xs => exact ⟨'[', _, rfl, by decide, by decide, by decide⟩
  | obj fs => exact ⟨'{', _, rfl, by decide, by decide, by decide⟩

theorem stopsNum_arrTail (t : JsonArr) (rest : Str) :
    stopsNum (stringifyArrTail t ++ ']' :: rest) := by
  cases t with
  | nil => rw [stringifyArrTail, List.nil_append]; exact (by decide : isDigitChar ']' = false)
  | cons h t' =>
    rw [stringifyArrTail, List.cons_append]
    exact (by decide : isDigitChar ',' = false)

theorem stopsNum_objTail (t : JsonObj) (rest : Str) :
    stopsNum (stringifyObjTail t ++ '}' :: rest) := by
  cases t with
  | nil => rw [stringifyObjTail, List.nil_append]; exact (by decide : isDigitChar '}' = false)
  | cons k v t' =>
    rw [stringifyObjTail, List.cons_append]
    exact (by decide : isDigitChar ',' = false)


theorem parse_render_all (fuel : Nat) :
    (∀ v rest, measJ v ≤ fuel → stopsNum rest →
      parseJson fuel (v.stringify ++ rest) = some (v, rest)) ∧
    (∀ xs rest, measA xs ≤ fuel →
      parseArrBody fuel (stringifyArrBody xs ++ ']' :: rest) = some (xs, rest)) ∧
    (∀ xs rest, measA xs ≤ fuel →
      parseArrTail fuel (stringifyArrTail xs ++ ']' :: rest) = some (xs, rest)) ∧
    (∀ fs rest, measO fs ≤ fuel →
      parseObjBody fuel (stringifyObjBody fs ++ '}' :: rest) = some (fs, rest)) ∧
    (∀ fs rest, measO fs ≤ fuel →
      parseObjTail fuel (stringifyObjTail fs ++ '}' :: rest) = some (fs, rest)) := by
  induction fuel with
  | zero =>
    refine ⟨?_, ?_, ?_, ?_, ?_⟩
    · intro v rest h _; exact absurd h (by have := measJ_pos v; omega)
    · intro xs rest h; exact absurd h (by have := measA_pos xs; omega)
    · intro xs rest h; exact absurd h (by have := measA_pos xs; omega)
    · intro fs rest h; exact absurd h (by have := measO_pos fs; omega)
    · intro fs rest h; exact absurd h (by have := measO_pos fs; omega)
  | succ fuel ih =>
    obtain ⟨ihP, ihPB, ihPT, ihOB, ihOT⟩ := ih
    refine ⟨?_, ?_, ?_, ?_, ?_⟩
    · -- parseJson
      intro v rest hm hs
      cases v with
      | null =>
        rw [Json.stringify, List.cons_append, parseJson.eq_def]
        simp +decide [expectChars]
      | boolean b =>
        cases b with
        | true =>
          rw [Json.stringify, List.cons_append, parseJson.eq_def]
          simp +decide [expectChars]
        | false =>
          rw [Json.stringify, List.cons_append, parseJson.eq_def]
          simp +decide [expectChars]
      | num n =>
        obtain ⟨c, t, hct, hd⟩ := intToChars_head n
        obtain ⟨hn, ht, hf, hq, hlb, hlc, _, _, _⟩ := numHead_cases c hd
        rw [Json.stringify, hct, List.cons_append, parseJson.eq_def]
        simp only [if_neg hn, if_neg ht, if_neg hf, if_neg hq, if_neg hlb, if_neg hlc]
        rw [← List.cons_append, ← hct, parseInt_intToChars n rest hs]
        rfl
      | str s =>
        rw [Json.stringify, quoteStr, List.cons_append, parseJson.eq_def]
        simp +decide [List.append_assoc, parseStringBody_escape]
      | arr xs =>
        have hmx : measA xs ≤ fuel := by simp only [measJ] at hm; omega
        rw [Json.stringify, List.cons_append, parseJson.eq_def]
        simp +decide [List.append_assoc, ihPB xs rest hmx]
      | obj fs =>
        have hmx : measO fs ≤ fuel := by simp only [measJ] at hm; omega
        rw [Json.stringify, List.cons_append, parseJson.eq_def]
        simp +decide [List.append_assoc, ihOB fs rest hmx]
    · -- parseArrBody
      intro xs rest hm
      cases xs with
      | nil =>
        rw [stringifyArrBody, List.nil_append, parseArrBody.eq_def]
        simp +decide
      | cons h t =>
        obtain ⟨c, ct, hct, hne1, _, _⟩ := stringify_head h
        have hmh : measJ h ≤ fuel := by simp only [measA] at hm; have := measA_pos t; omega
        have hmt : measA t ≤ fuel := by simp only [measA] at hm; have := measJ_pos h; omega
        rw [stringifyArrBody, List.append_assoc, hct, List.cons_append, parseArrBody.eq_def]
        simp only [if_neg hne1]
        rw [← List.cons_append, ← hct,
          ihP h (stringifyArrTail t ++ ']' :: rest) hmh (stopsNum_arrTail t rest)]
        simp [ihPT t rest hmt]
    · -- parseArrTail
      intro xs rest hm
      cases xs with
      | nil =>
        rw [stringifyArrTail, List.nil_append, parseArrTail.eq_def]
        simp +decide
      | cons h t =>
        have hmh : measJ h ≤ fuel := by simp only [measA] at hm; have := measA_pos t; omega
        have hmt : measA t ≤ fuel := by simp only [measA] at hm; have := measJ_pos h; omega
        rw [stringifyArrTail, List.cons_append, parseArrTail.eq_def]
        simp +decide [List.append_assoc,
          ihP h (stringifyArrTail t ++ ']' :: rest) hmh (stopsNum_arrTail t rest),
          ihPT t rest hmt]
    · -- parseObjBody
      intro fs rest hm
      cases fs with
      | nil =>
        rw [stringifyObjBody, List.nil_append, parseObjBody.eq_def]
        simp +decide
      | cons k v t =>
        have hmv : measJ v ≤ fuel := by simp only [measO] at hm; have := measO_pos t; omega
        have hmt : measO t ≤ fuel := by simp only [measO] at hm; have := measJ_pos v; omega
        rw [stringifyObjBody, quoteStr, List.cons_append, parseObjBody.eq_def]
        simp +decide [expectColon, List.append_assoc, List.singleton_append,
          parseStringBody_escape k,
          ihP v (stringifyObjTail t ++ '}' :: rest) hmv (stopsNum_objTail t rest),
          ihOT t rest hmt]
    · -- parseObjTail
      intro fs rest hm
      cases fs with
      | nil =>
        rw [stringifyObjTail, List.nil_append, parseObjTail.eq_def]
        simp +decide
      | cons k v t =>
        have hmv : measJ v ≤ fuel := by simp only [measO] at hm; have := measO_pos t; omega
        have hmt : measO t ≤ fuel := by simp only [measO] at hm; have := measJ_pos v; omega
        rw [stringifyObjTail, List.cons_append, quoteStr, parseObjTail.eq_def]
        simp +decide [expectChars, expectColon, List.append_assoc, List.singleton_append,
          parseStringBody_escape k,
          ihP v (stringifyObjTail t ++ '}' :: rest) hmv (stopsNum_objTail t rest),
          ihOT t rest hmt]

theorem parseTop_stringify (v : Json) : parseTop v.stringify = some v := by
  have hm : measJ v ≤ 2 * v.stringify.length + 2 := by have := measJ_le v; omega
  have h := (parse_render_all (2 * v.stringify.length + 2)).1 v [] hm trivial
  rw [List.append_nil] at h
  rw [parseTop, h]

/-! ## UTF-8 (`Buffer.from(str)` / `buff.toString("utf-8")`) -/

/-- UTF-8 encoding of one scalar value. -/
def utf8EncodeChar (c : Char) : List Nat :=
  let n := c.toNat
  if n < 0x80 then [n]
  else if n < 0x800 then [0xC0 + n / 64, 0x80 + n % 64]
  else if n < 0x10000 then [0xE0 + n / 4096, 0x80 + n / 64 % 64, 0x80 + n % 64]
  else [0xF0 + n / 262144, 0x80 + n / 4096 % 64, 0x80 + n / 64 % 64, 0x80 + n % 64]

/-- UTF-8 encoding of a string (`Buffer.from(str)`). -/
def utf8Encode : Str → List Nat
  | [] => []
  | c :: cs => utf8EncodeChar c ++ utf8Encode cs

/-- Take one UTF-8 continuation byte (`10xxxxxx`), returning its payload. -/
def takeCont : List Nat → Option (Nat × List Nat)
  | [] => none
  | b :: rest => if 0x80 ≤ b ∧ b < 0xC0 then some (b - 0x80, rest) else none

/-- UTF-8 decoding worker; the fuel bounds the number of decoded characters
(the input length always suffices). -/
def utf8DecodeGo : Nat → List Nat → Option Str
  | _, [] => some []
  | 0, _ :: _ => none
  | fuel + 1, b :: rest =>
    if b < 0x80 then
      (charOfCode b).bind fun c => (utf8DecodeGo fuel rest).map fun s => c :: s
    else if b < 0xC0 then none
    else if b < 0xE0 then
      (takeCont rest).bind fun p1 =>
      (charOfCode ((b - 0xC0) * 64 + p1.1)).bind fun c =>
      (utf8DecodeGo fuel p1.2).map fun s => c :: s
    else if b < 0xF0 then
      (takeCont rest).bind fun p1 =>
      (takeCont p1.2).bind fun p2 =>
      (charOfCode (((b - 0xE0) * 64 + p1.1) * 64 + p2.1)).bind fun c =>
      (utf8DecodeGo fuel p2.2).map fun s => c :: s
    else if b < 0xF8 then
      (takeCont rest).bind fun p1 =>
      (takeCont p1.2).bind fun p2 =>
      (takeCont p2.2).bind fun p3 =>
      (charOfCode ((((b - 0xF0) * 64 + p1.1) * 64 + p2.1) * 64 + p3.1)).bind fun c =>
      (utf8DecodeGo fuel p3.2).map fun s => c :: s
    else none

/-- UTF-8 decoding (`buff.toString("utf-8")`, for well-formed input). -/
def utf8Decode (bs : List Nat) : Option Str := utf8DecodeGo bs.length bs

theorem utf8EncodeChar_bytes_lt (c : Char) : ∀ b ∈ utf8EncodeChar c, b < 256 := by
  intro b hb
  have hvalid : c.toNat.isValidChar := c.valid
  have hv : c.toNat < 0x110000 := by
    rcases hvalid with h | ⟨_, h⟩ <;> omega
  rw [utf8EncodeChar] at hb
  by_cases h1 : c.toNat < 0x80
  · rw [if_pos h1] at hb
    simp only [List.mem_singleton] at hb
    omega
  · rw [if_neg h1] at hb
    by_cases h2 : c.toNat < 0x800
    · rw [if_pos h2] at hb
      simp only [List.mem_cons, List.mem_singleton, List.not_mem_nil, or_false] at hb
      rcases hb with rfl | rfl <;> omega
    · rw [if_neg h2] at hb
      by_cases h3 : c.toNat < 0x10000
      · rw [if_pos h3] at hb
        simp only [List.mem_cons, List.not_mem_nil, or_false] at hb
        rcases hb with rfl | rfl | rfl <;> omega
      · rw [if_neg h3] at hb
        simp only [List.mem_cons, List.not_mem_nil, or_false] at hb
        rcases hb with rfl | rfl | rfl | rfl <;> omega

theorem utf8Encode_bytes_lt (s : Str) : ∀ b ∈ utf8Encode s, b < 256 := by
  induction s with
  | nil => intro b hb; cases hb
  | cons c cs ih =>
    intro b hb
    rw [utf8Encode, List.mem_append] at hb
    rcases hb with h | h
    · exact utf8EncodeChar_bytes_lt c b h
    · exact ih b h

theorem takeCont_payload (n : Nat) (rest : List Nat) (h : n < 64) :
    takeCont ((0x80 + n) :: rest) = some (n, rest) := by
  have hn : 0x80 + n - 0x80 = n := by omega
  rw [takeCont, if_pos (show 0x80 ≤ 0x80 + n ∧ 0x80 + n < 0xC0 by omega), hn]

theorem utf8DecodeGo_encodeChar (fuel : Nat) (c : Char) (rest : List Nat) :
    utf8DecodeGo (fuel + 1) (utf8EncodeChar c ++ rest) =
      (utf8DecodeGo fuel rest).map fun s => c :: s := by
  have hvalid : c.toNat.isValidChar := c.valid
  have hvr : c.toNat < 0xD800 ∨ (0xDFFF < c.toNat ∧ c.toNat < 0x110000) := hvalid
  rw [utf8EncodeChar]
  by_cases h1 : c.toNat < 0x80
  · rw [if_pos h1]
    simp only [List.cons_append, List.nil_append]
    rw [utf8DecodeGo, if_pos h1, charOfCode_toNat]
    rfl
  · rw [if_neg h1]
    by_cases h2 : c.toNat < 0x800
    · rw [if_pos h2]
      simp only [List.cons_append, List.nil_append]
      rw [utf8DecodeGo, if_neg (by omega), if_neg (by omega), if_pos (by omega),
        takeCont_payload _ _ (by omega)]
      simp only [Option.some_bind]
      rw [show (0xC0 + c.toNat / 64 - 0xC0) * 64 + c.toNat % 64 = c.toNat by omega,
        charOfCode_toNat]
      rfl
    · by_cases h3 : c.toNat < 0x10000
      · rw [if_neg h2, if_pos h3]
        simp only [List.cons_append, List.nil_append]
        rw [utf8DecodeGo, if_neg (by omega), if_neg (by omega), if_neg (by omega),
          if_pos (by omega), takeCont_payload _ _ (by omega)]
        simp only [Option.some_bind]
        rw [takeCont_payload _ _ (by omega)]
        simp only [Option.some_bind]
        rw [show ((0xE0 + c.toNat / 4096 - 0xE0) * 64 + c.toNat / 64 % 64) * 64 + c.toNat % 64 =
            c.toNat by omega,
          charOfCode_toNat]
        rfl
      · rw [if_neg h2, if_neg h3]
        simp only [List.cons_append, List.nil_append]
        rw [utf8DecodeGo, if_neg (by omega), if_neg (by omega), if_neg (by omega),
          if_neg (by omega), if_pos (by omega), takeCont_payload _ _ (by omega)]
        simp only [Option.some_bind]
        rw [takeCont_payload _ _ (by omega)]
        simp only [Option.some_bind]
        rw [takeCont_payload _ _ (by omega)]
        simp only [Option.some_bind]
        rw [show (((0xF0 + c.toNat / 262144 - 0xF0) * 64 + c.toNat / 4096 % 64) * 64 +
            c.toNat / 64 % 64) * 64 + c.toNat % 64 = c.toNat by omega,
          charOfCode_toNat]
        rfl

theorem utf8DecodeGo_encode (fuel : Nat) : ∀ s : Str, s.length ≤ fuel →
    utf8DecodeGo fuel (utf8Encode s) = some s := by
  induction fuel with
  | zero =>
    intro s hl
    match s, hl with
    | [], _ => rfl
  | succ fuel ih =>
    intro s hl
    cases s with
    | nil => rfl
    | cons c cs =>
      rw [utf8Encode, utf8DecodeGo_encodeChar, ih cs (by simp at hl; omega)]
      rfl

theorem utf8EncodeChar_length_pos (c : Char) : 1 ≤ (utf8EncodeChar c).length := by
  rw [utf8EncodeChar]
  split
  · simp
  · split
    · simp
    · split <;> simp

theorem utf8Encode_length_ge (s : Str) : s.length ≤ (utf8Encode s).length := by
  induction s with
  | nil => simp [utf8Encode]
  | cons c cs ih =>
    rw [utf8Encode, List.length_append]
    have := utf8EncodeChar_length_pos c
    simp only [List.length_cons]
    omega

theorem utf8Decode_encode (s : Str) : utf8Decode (utf8Encode s) = some s := by
  rw [utf8Decode]
  exact utf8DecodeGo_encode _ s (utf8Encode_length_ge s)

/-! ## Base64 (`buff.toString("base64")` / `Buffer.from(s, "base64")`) -/

/-- The standard base64 alphabet. -/
def b64Alphabet : Str :=
  "ABCDEFGHIJKLMNOPQRSTUVWXYZabcdefghijklmnopqrstuvwxyz0123456789+/".toList

/-- The character for a sextet value. -/
def b64Char (n : Nat) : Char := b64Alphabet.getD n 'A'

/-- The sextet value of an alphabet character. -/
def b64Index (c : Char) : Option Nat :=
  (b64Alphabet.findIdx? fun a => a = c)

/-- Base64 encoding of a byte list, with `=` padding. -/
def b64Encode : List Nat → Str
  | [] => []
  | [b0] => [b64Char (b0 / 4), b64Char (b0 % 4 * 16), '=', '=']
  | [b0, b1] => [b64Char (b0 / 4), b64Char (b0 % 4 * 16 + b1 / 16), b64Char (b1 % 16 * 4), '=']
  | b0 :: b1 :: b2 :: rest =>
    b64Char (b0 / 4) :: b64Char (b0 % 4 * 16 + b1 / 16) ::
      b64Char (b1 % 16 * 4 + b2 / 64) :: b64Char (b2 % 64) :: b64Encode rest

/-- Base64 decoding of a well-formed base64 text. -/
def b64Decode : Str → Option (List Nat)
  | [] => some []
  | c0 :: c1 :: c2 :: c3 :: rest =>
    (b64Index c0).bind fun n0 =>
    (b64Index c1).bind fun n1 =>
    if c2 = '=' then
      if c3 = '=' ∧ rest = [] then some [n0 * 4 + n1 / 16] else none
    else
      (b64Index c2).bind fun n2 =>
      if c3 = '=' then
        if rest = [] then some [n0 * 4 + n1 / 16, n1 % 16 * 16 + n2 / 4] else none
      else
        (b64Index c3).bind fun n3 =>
        (b64Decode rest).map fun bs =>
          (n0 * 4 + n1 / 16) :: (n1 % 16 * 16 + n2 / 4) :: (n2 % 4 * 64 + n3) :: bs
  | _ => none

theorem b64Index_b64Char : ∀ n < 64, b64Index (b64Char n) = some n := by decide

theorem b64Char_ne_eq : ∀ n < 64, (b64Char n = '=') = False := by decide

theorem b64Decode_encode (bs : List Nat) (hb : ∀ b ∈ bs, b < 256) :
    b64Decode (b64Encode bs) = some bs := by
  induction bs using b64Encode.induct with
  | case1 => rfl
  | case2 b0 =>
    have h0 : b0 < 256 := hb b0 (by simp)
    have e1 : b0 / 4 * 4 + b0 % 4 * 16 / 16 = b0 := by omega
    rw [b64Encode, b64Decode, b64Index_b64Char _ (by omega), b64Index_b64Char _ (by omega)]
    simp +decide [e1]
    omega
  | case3 b0 b1 =>
    have h0 : b0 < 256 := hb b0 (by simp)
    have h1 : b1 < 256 := hb b1 (by simp)
    have e1 : b0 / 4 * 4 + (b0 % 4 * 16 + b1 / 16) / 16 = b0 := by omega
    have e2 : (b0 % 4 * 16 + b1 / 16) % 16 * 16 + b1 % 16 * 4 / 4 = b1 := by omega
    rw [b64Encode, b64Decode, b64Index_b64Char _ (by omega), b64Index_b64Char _ (by omega),
      b64Index_b64Char _ (by omega)]
    simp +decide [b64Char_ne_eq _ (show b1 % 16 * 4 < 64 by omega), e1, e2]
    omega
  | case4 b0 b1 b2 rest ih =>
    have h0 : b0 < 256 := hb b0 (by simp)
    have h1 : b1 < 256 := hb b1 (by simp)
    have h2 : b2 < 256 := hb b2 (by simp)
    have hrest : ∀ b ∈ rest, b < 256 := fun b hbm => hb b (by simp [hbm])
    have e1 : b0 / 4 * 4 + (b0 % 4 * 16 + b1 / 16) / 16 = b0 := by omega
    have e2 : (b0 % 4 * 16 + b1 / 16) % 16 * 16 + (b1 % 16 * 4 + b2 / 64) / 4 = b1 := by omega
    have e3 : (b1 % 16 * 4 + b2 / 64) % 4 * 64 + b2 % 64 = b2 := by omega
    rw [b64Encode, b64Decode, b64Index_b64Char _ (by omega), b64Index_b64Char _ (by omega),
      b64Index_b64Char _ (by omega), b64Index_b64Char _ (by omega), ih hrest]
    simp +decide [b64Char_ne_eq _ (show b1 % 16 * 4 + b2 / 64 < 64 by omega),
      b64Char_ne_eq _ (show b2 % 64 < 64 by omega), e1, e2, e3]
    try omega

/-! ## The attribute codec (`base64.js` / `src/base64.ts`) -/

/-- `encodeJson(json)`: `JSON.stringify`, then the UTF-8 bytes of the text,
then base64 (`Buffer.from(jsonStr).toString("base64")`). -/
def encodeJson (v : Json) : Str := b64Encode (utf8Encode v.stringify)

/-- `decodeJson(base64)`: decode the base64 text to bytes
(`Buffer.from(base64, "base64")`), read them as UTF-8 (`buff.toString("utf-8")`)
and `JSON.parse` the result.  `none` models a thrown decoding error. -/
def decodeJson (s : Str) : Option Json :=
  (b64Decode s).bind fun bytes =>
    (utf8Decode bytes).bind fun text => parseTop text

example : decodeJson (encodeJson (Json.obj (.cons ['a'] (.num 1) .nil))) =
    some (Json.obj (.cons ['a'] (.num 1) .nil)) := by decide

theorem codec_roundtrip (v : Json) : decodeJson (encodeJson v) = some v := by
  rw [encodeJson, decodeJson, b64Decode_encode _ (utf8Encode_bytes_lt v.stringify)]
  simp only [Option.some_bind]
  rw [utf8Decode_encode]
  simp only [Option.some_bind]
  exact parseTop_stringify v

/-- C2: For every JSON-representable value `v`,
`decodeJson (encodeJson v) = v`: the attribute codec's base64-of-JSON
encoding is inverted exactly by its decoder.  (JSON values are modelled
with integer numbers; IEEE-754 fractions are outside the model.) -/
theorem C2_decodeJson_encodeJson (v : Json) : decodeJson (encodeJson v) = some v :=
  codec_roundtrip v

/-! ## Publisher (`createPublisher(...).dispatch`)

Embeds `dispatch` as in `src/index.ts` (and the `@aws-sdk` revision, whose
`dispatch` body is identical): synchronous validation in source order,
construction of the attribute map and `eventParams`, and the client-side
size check, all before any transport call.  The returned `PublishRequest`
is the value handed to the transport (`sns.publish` / `PublishCommand`). -/

/-- The `Events` enumeration (values of the enum, `@aws-sdk` revision). -/
def eventsValues : List Str :=
  ["ORDER_PENDING", "ORDER_COMPLETED", "ORDER_CANCELLED", "ORDER_FAILED",
   "ORDER_REFUNDED", "ORDER_ABANDONED", "ORDER_AWAITING_PAYMENT",
   "ORDER_AWAITING_PURCHASE", "ORDER_NEEDS_ATTENTION", "ORDER_PAYMENT_FAILED",
   "ORDER_TOUCH", "ORDERS_CHECKSUM", "ORDERS_CHECKSUM_ERROR",
   "ORDER_ITEM_CREATED", "ORDER_ITEM_COMPLETED", "ORDER_ITEM_AWAITING_DATES",
   "ORDER_ITEM_FAILED", "ORDER_ITEM_CANCELLED", "ORDER_ITEM_TOUCH",
   "ORDER_ITEM_CHANGE_DATES", "ORDER_ITEM_DELETE_RESERVATION",
   "ORDER_ITEM_UPDATE_RESERVATION", "ORDER_ITEM_REFUND", "ORDER_ITEMS_CHECKSUM",
   "ORDER_ITEMS_CHECKSUM_ERROR", "ORDER_ADDON_ITEM_CANCELLED",
   "ORDER_FLIGHT_ITEM_CREATED", "ORDER_FLIGHT_ITEM_COMPLETED",
   "ORDER_FLIGHT_ITEM_FAILED", "ORDER_FLIGHT_ITEM_CANCELLED",
   "OFFER_UPDATE", "OFFER_LOWEST_PRICE_UPDATE", "OFFER_TAG_UPDATE",
   "RATE_PLAN_UPDATE", "RATE_PLAN_DELETE", "PROPERTY_UPDATE", "PROPERTY_DELETE",
   "PROPERTY_PARENT_UPDATE", "BEDBANK_PROPERTY_RATING_UPDATE",
   "PROPERTY_RATING_UPDATE", "EXPERIENCE_RATING_UPDATE", "TOUR_RATING_UPDATE",
   "RATING_REVIEW_CREATED", "RATING_REVIEW_UPDATED", "ROOM_AVAILABILITY_UPDATE",
   "RATE_AVAILABILITY_UPDATE", "HOTEL_RESERVATION_SITEMINDER_ERROR",
   "HOTEL_RESERVATION_TRAVELCLICK_ERROR", "RESERVATION_FX_RATES_UPDATE",
   "FX_RATE_UPDATE", "RESERVATION_UPDATE", "RESERVATION_CONFIRM_FAILURE",
   "SITEMINDER_CURRENCY_ERROR", "RENTALSUNITED_PROPERTY_UPDATE",
   "RENTALSUNITED_REVIEW_UPDATE", "RENTALSUNITED_IMAGES_COMPLETE",
   "VOUCHER_UPDATE", "TOUR_OFFER_UPDATE", "TOUR_UPDATE", "TOUR_DELETE",
   "TOUR_OFFER_SEARCH_UPDATE", "TOUR_OFFER_SEARCH_DELETE", "CONN_SF_TOUR_UPDATE",
   "GDPR_REMOVAL", "ARI_RATES_UPDATE", "ARI_INVENTORY_UPDATE",
   "ARI_AVAILABILITY_UPDATE", "BEDBANK_GRANULAR_UPDATE",
   "BEDBANK_PROPERTY_FLIGHT_UPDATE", "BEDBANK_SYNC", "BEDBANK_UPDATE",
   "CRUISE_CACHE_SYNC", "CRUISE_UPDATE", "CRUISE_VENDOR_UPDATE",
   "CRUISE_PRICE_UPDATE", "CRUISE_SAILING_DELETE", "CRUISE_ACTIVE_SAILINGS",
   "USER_SIGN_UP", "CAR_HIRE_LOCATION_SYNC", "AD_FEED_BLOCK",
   "AGENT_HUB_COMMISSION_RULES_SYNC", "ACCOMM_PROPERTY_UPDATE",
   "ACCOMM_PROPERTY_DELETE"].map String.toList

/-- The `Message` model (`type`, `source`, `checksum`, `message`, plus the
optional fields).  `checksum : Option Int` models a JavaScript `number`:
`none` is `NaN`. -/
structure Message where
  type : Str
  source : Str
  checksum : Option Int
  message : Str
  uri : Option Str := none
  id : Option Str := none
  json : Option Json := none
  groupId : Option Str := none
  transactionId : Option Str := none
deriving DecidableEq

/-- JavaScript truthiness of an optional string field (`undefined` and `""`
are falsy). -/
def jsTruthyOpt : Option Str → Bool
  | none => false
  | some s => !s.isEmpty

/-- JavaScript truthiness of the optional `json` field. -/
def jsTruthyOptJson : Option Json → Bool
  | none => false
  | some v => v.jsTruthy

/-- One entry of the outbound attribute map (`{DataType, StringValue}`). -/
structure AttrEntry where
  name : Str
  dataType : Str
  stringValue : Str
deriving DecidableEq

/-- The outbound transport request (`eventParams` handed to the publish
call). -/
structure PublishRequest where
  messageAttributes : List AttrEntry
  topicArn : Str
  body : Str
  messageGroupId : Option Str
  messageDeduplicationId : Option Str
deriving DecidableEq

/-- The publisher's error taxonomy (each with its `message` string). -/
inductive DispatchError where
  | invalidEventType (msg : Str)
  | invalidEventChecksum (msg : Str)
  | invalidEventSource (msg : Str)
  | invalidEventMessage (msg : Str)
  | invalidEventJson (msg : Str)
  | invalidEventSize (msg : Str)
  | invalidFIFOMessage (msg : Str)
deriving DecidableEq

/-- `topic.endsWith(".fifo")`. -/
def topicIsFIFO (topic : Str) : Bool := ".fifo".toList.isSuffixOf topic

/-- The attribute map built by `dispatch`: mandatory `type`, `checksum`
(stringified), `source`; optional `uri` (with the `apiHost` prefix), `id`
and `json` (through the attribute codec), in insertion order. -/
def buildMessageAttributes (apiHost : Str) (m : Message) (c : Int) : List AttrEntry :=
  [⟨"type".toList, "String".toList, m.type⟩,
   ⟨"checksum".toList, "Number".toList, intToChars c⟩,
   ⟨"source".toList, "String".toList, m.source⟩]
  ++ (if jsTruthyOpt m.uri then [⟨"uri".toList, "String".toList, apiHost ++ m.uri.getD []⟩] else [])
  ++ (if jsTruthyOpt m.id then [⟨"id".toList, "String".toList, m.id.getD []⟩] else [])
  ++ (if jsTruthyOptJson m.json then
        [⟨"json".toList, "String".toList, encodeJson (m.json.getD Json.null)⟩] else [])

/-- The JSON rendering of one attribute entry. -/
def attrEntryJson (e : AttrEntry) : Json :=
  .obj (.cons "DataType".toList (.str e.dataType)
        (.cons "StringValue".toList (.str e.stringValue) .nil))

/-- The JSON object of the whole attribute map, in insertion order. -/
def attrsJson : List AttrEntry → JsonObj
  | [] => .nil
  | e :: es => .cons e.name (attrEntryJson e) (attrsJson es)

/-- `eventParams` as serialized by `JSON.stringify` for the size check:
`{MessageAttributes, TopicArn, Message}` (the FIFO keys are attached only
after the size check, as in the source). -/
def eventParamsJson (attrs : List AttrEntry) (topic body : Str) : Json :=
  .obj (.cons "MessageAttributes".toList (.obj (attrsJson attrs))
        (.cons "TopicArn".toList (.str topic)
         (.cons "Message".toList (.str body) .nil)))

/-- `Buffer.byteLength(JSON.stringify(eventParams), "utf8")`. -/
def requestSizeBytes (attrs : List AttrEntry) (topic body : Str) : Nat :=
  (utf8Encode (eventParamsJson attrs topic body).stringify).length

/-- Amazon SNS currently allows a maximum size of 256 KB for published
messages. -/
def MAX_EVENT_MESSAGE_SIZE : Nat := 256 * 1024

/-- `dispatch` of `createPublisher` (`src/index.ts`; the `@aws-sdk` revision
is line-for-line the same): validations in source order, then the built
request.  `.ok` is reached exactly when no validation throws; the transport
call (or the `IGNORE_EVENTS` dry-run) happens after everything modelled
here. -/
def dispatch (topic apiHost : Str) (m : Message) : Except DispatchError PublishRequest :=
  if m.type ∉ eventsValues then
    .error (.invalidEventType ("invalid event type '".toList ++ m.type ++ "'".toList))
  else match m.checksum with
  | none => .error (.invalidEventChecksum "checksum is not a number".toList)
  | some c =>
    if m.source.isEmpty then
      .error (.invalidEventSource "event source is required".toList)
    else if m.message.isEmpty then
      .error (.invalidEventMessage "event message is required".toList)
    else if topicIsFIFO topic ∧ jsTruthyOpt m.groupId = false then
      .error (.invalidFIFOMessage "groupId is required for FIFO messages".toList)
    else if topicIsFIFO topic ∧ jsTruthyOpt m.transactionId = false then
      .error (.invalidFIFOMessage "transactionId is required for FIFO messages".toList)
    else
      let attrs := buildMessageAttributes apiHost m c
      if requestSizeBytes attrs topic m.message > MAX_EVENT_MESSAGE_SIZE then
        .error (.invalidEventSize "json message exceeded limit of 256KB".toList)
      else
        .ok { messageAttributes := attrs
              topicArn := topic
              body := m.message
              messageGroupId := if jsTruthyOpt m.groupId then m.groupId else none
              messageDeduplicationId := if jsTruthyOpt m.transactionId then m.transactionId else none }

deriving instance DecidableEq for Except


/-- C5: For a FIFO-bound publisher (topic name ending `.fifo`) and an
otherwise-valid message: dispatch without a (truthy) `groupId` throws
`InvalidFIFOMessageError` whose message mentions `groupId` (it literally
starts with it); dispatch with `groupId` but without `transactionId` throws
`InvalidFIFOMessageError` whose message mentions `transactionId`; and with
both present and all other fields valid, dispatch succeeds — no error is
raised before the transport call. -/
theorem C5_fifo_validation (topic apiHost : Str) (m : Message)
    (hfifo : topicIsFIFO topic = true)
    (htype : m.type ∈ eventsValues)
    (hck : m.checksum ≠ none)
    (hsrc : m.source ≠ [])
    (hmsg : m.message ≠ []) :
    (jsTruthyOpt m.groupId = false →
      dispatch topic apiHost m =
        .error (.invalidFIFOMessage "groupId is required for FIFO messages".toList) ∧
      ∃ post, "groupId is required for FIFO messages".toList = "groupId".toList ++ post) ∧
    (jsTruthyOpt m.groupId = true → jsTruthyOpt m.transactionId = false →
      dispatch topic apiHost m =
        .error (.invalidFIFOMessage "transactionId is required for FIFO messages".toList) ∧
      ∃ post, "transactionId is required for FIFO messages".toList = "transactionId".toList ++ post) ∧
    (jsTruthyOpt m.groupId = true → jsTruthyOpt m.transactionId = true →
      requestSizeBytes (buildMessageAttributes apiHost m (m.checksum.getD 0)) topic m.message
        ≤ MAX_EVENT_MESSAGE_SIZE →
      ∃ r, dispatch topic apiHost m = .ok r) := by
  obtain ⟨c, hc⟩ : ∃ c, m.checksum = some c := by
    cases hck' : m.checksum with
    | none => exact absurd hck' hck
    | some c => exact ⟨c, rfl⟩
  have hsrc' : m.source.isEmpty = false := by
    cases hms : m.source with
    | nil => exact absurd rfl (hms ▸ hsrc)
    | cons a l => rfl
  have hmsg' : m.message.isEmpty = false := by
    cases hms : m.message with
    | nil => exact absurd rfl (hms ▸ hmsg)
    | cons a l => rfl
  refine ⟨?_, ?_, ?_⟩
  · intro hg
    refine ⟨?_, ⟨" is required for FIFO messages".toList, rfl⟩⟩
    rw [dispatch.eq_def, if_neg (not_not_intro htype), hc]
    simp only [hsrc', hmsg', Bool.false_eq_true, if_false]
    rw [if_pos ⟨hfifo, hg⟩]
  · intro hg ht
    refine ⟨?_, ⟨" is required for FIFO messages".toList, rfl⟩⟩
    rw [dispatch.eq_def, if_neg (not_not_intro htype), hc]
    simp only [hsrc', hmsg', Bool.false_eq_true, if_false]
    rw [if_neg (by simp [hg]), if_pos ⟨hfifo, ht⟩]
  · intro hg ht hsize
    rw [dispatch.eq_def, if_neg (not_not_intro htype), hc]
    simp only [hsrc', hmsg', Bool.false_eq_true, if_false]
    rw [if_neg (by simp [hg]), if_neg (by simp [ht])]
    rw [hc] at hsize
    simp only [Option.getD_some] at hsize
    rw [if_neg (by omega)]
    exact ⟨_, rfl⟩

/-- Concrete FIFO dispatch scenario of the test suite: no `groupId`. -/
def fifoMsgNoGroup : Message :=
  {type := "ORDER_PENDING".toList, source := "test".toList,
   checksum := some 1, message := "test".toList, uri := some "/api".toList,
   transactionId := some "123".toList}

/-- Concrete FIFO dispatch scenario of the test suite: no `transactionId`. -/
def fifoMsgNoTransaction : Message :=
  {type := "ORDER_PENDING".toList, source := "test".toList,
   checksum := some 1, message := "test".toList, uri := some "/api".toList,
   groupId := some "123".toList}

/-- Concrete FIFO dispatch scenario: both FIFO keys present. -/
def fifoMsgComplete : Message :=
  {type := "ORDER_PENDING".toList, source := "test".toList,
   checksum := some 1, message := "test".toList, uri := some "/api".toList,
   groupId := some "123".toList, transactionId := some "123".toList}

set_option maxRecDepth 8000 in
/-- Witness for C5 at the test suite's concrete publisher and messages. -/
theorem C5_fifo_validation_witness :
    (dispatch "my-sns-topic.fifo".toList "https://our-api.com".toList fifoMsgNoGroup =
      .error (.invalidFIFOMessage "groupId is required for FIFO messages".toList)) ∧
    (dispatch "my-sns-topic.fifo".toList "https://our-api.com".toList fifoMsgNoTransaction =
      .error (.invalidFIFOMessage "transactionId is required for FIFO messages".toList)) ∧
    (∃ r, dispatch "my-sns-topic.fifo".toList "https://our-api.com".toList fifoMsgComplete = .ok r) :=
  ⟨((C5_fifo_validation "my-sns-topic.fifo".toList "https://our-api.com".toList fifoMsgNoGroup
      (by decide) (by decide) (by decide) (by decide) (by decide)).1 (by decide)).1,
   (((C5_fifo_validation "my-sns-topic.fifo".toList "https://our-api.com".toList fifoMsgNoTransaction
      (by decide) (by decide) (by decide) (by decide) (by decide)).2.1 (by decide) (by decide)).1),
   (C5_fifo_validation "my-sns-topic.fifo".toList "https://our-api.com".toList fifoMsgComplete
      (by decide) (by decide) (by decide) (by decide) (by decide)).2.2
      (by decide) (by decide) (by decide)⟩

/-- C6: For an otherwise-valid message on a non-FIFO topic, `dispatch`
throws `InvalidEventSizeError` exactly when the byte length of the
serialized outbound request (attributes plus body) strictly exceeds
262144 bytes; at or under the limit the size check passes and dispatch
succeeds.  The check is part of the pure pre-send computation modelled
here — no transport call is involved. -/
theorem C6_size_ceiling (topic apiHost : Str) (m : Message)
    (htype : m.type ∈ eventsValues)
    (hck : m.checksum ≠ none)
    (hsrc : m.source ≠ [])
    (hmsg : m.message ≠ [])
    (hfifo : topicIsFIFO topic = false) :
    (dispatch topic apiHost m =
        .error (.invalidEventSize "json message exceeded limit of 256KB".toList) ↔
      262144 < requestSizeBytes (buildMessageAttributes apiHost m (m.checksum.getD 0)) topic m.message) ∧
    (requestSizeBytes (buildMessageAttributes apiHost m (m.checksum.getD 0)) topic m.message ≤ 262144 →
      ∃ r, dispatch topic apiHost m = .ok r) := by
  obtain ⟨c, hc⟩ : ∃ c, m.checksum = some c := by
    cases hck' : m.checksum with
    | none => exact absurd hck' hck
    | some c => exact ⟨c, rfl⟩
  have hsrc' : m.source.isEmpty = false := by
    cases hms : m.source with
    | nil => exact absurd rfl (hms ▸ hsrc)
    | cons a l => rfl
  have hmsg' : m.message.isEmpty = false := by
    cases hms : m.message with
    | nil => exact absurd rfl (hms ▸ hmsg)
    | cons a l => rfl
  rw [hc]
  simp only [Option.getD_some]
  have hdis : ∀ P : Prop, (dispatch topic apiHost m =
      .error (.invalidEventSize "json message exceeded limit of 256KB".toList) ↔ P) ↔
      ((if 262144 < requestSizeBytes (buildMessageAttributes apiHost m c) topic m.message then
        (.error (.invalidEventSize "json message exceeded limit of 256KB".toList) :
          Except DispatchError PublishRequest)
      else .ok { messageAttributes := buildMessageAttributes apiHost m c
                 topicArn := topic
                 body := m.message
                 messageGroupId := if jsTruthyOpt m.groupId then m.groupId else none
                 messageDeduplicationId :=
                   if jsTruthyOpt m.transactionId then m.transactionId else none }) =
        .error (.invalidEventSize "json message exceeded limit of 256KB".toList) ↔ P) := by
    intro P
    rw [dispatch.eq_def, if_neg (not_not_intro htype), hc]
    simp only [hsrc', hmsg', Bool.false_eq_true, if_false, hfifo, false_and, MAX_EVENT_MESSAGE_SIZE]
  constructor
  · rw [hdis]
    by_cases hgt : 262144 < requestSizeBytes (buildMessageAttributes apiHost m c) topic m.message
    · rw [if_pos hgt]
      simp [hgt]
    · rw [if_neg hgt]
      simp [hgt]
  · intro hle
    rw [dispatch.eq_def, if_neg (not_not_intro htype), hc]
    simp only [hsrc', hmsg', Bool.false_eq_true, if_false, hfifo, false_and, MAX_EVENT_MESSAGE_SIZE]
    rw [if_neg (by omega)]
    exact ⟨_, rfl⟩

theorem utf8Encode_append (a b : Str) :
    utf8Encode (a ++ b) = utf8Encode a ++ utf8Encode b := by
  induction a with
  | nil => rfl
  | cons c cs ih => simp [utf8Encode, ih]

theorem escapeStr_replicate_a (n : Nat) :
    escapeStr (List.replicate n 'a') = List.replicate n 'a' := by
  induction n with
  | zero => rfl
  | succ k ih =>
    rw [List.replicate_succ, escapeStr, ih]
    rfl

theorem utf8Encode_replicate_a (n : Nat) :
    utf8Encode (List.replicate n 'a') = List.replicate n 97 := by
  induction n with
  | zero => rfl
  | succ k ih =>
    rw [List.replicate_succ, utf8Encode, ih]
    rfl

/-- The serialized request size is the size at empty body plus the body
length, for a body of ASCII characters that need no escaping. -/
theorem requestSizeBytes_replicate (attrs : List AttrEntry) (topic : Str) (n : Nat) :
    requestSizeBytes attrs topic (List.replicate n 'a') =
      requestSizeBytes attrs topic [] + n := by
  rw [requestSizeBytes, requestSizeBytes, eventParamsJson, eventParamsJson]
  simp +decide only [Json.stringify, stringifyObjBody, stringifyObjTail, quoteStr,
    escapeStr_replicate_a, escapeStr, escapeChar, List.cons_append, List.nil_append,
    List.append_nil, List.append_eq, utf8Encode, utf8Encode_append, utf8Encode_replicate_a,
    List.length_append, List.length_replicate, List.length_cons]
  omega

/-- The boundary-test message family: a valid message whose body is `n`
copies of `a`. -/
def c6Msg (n : Nat) : Message :=
  {type := "ORDER_TOUCH".toList, source := ['s'], checksum := some 1,
   message := List.replicate n 'a'}

/-- The attribute map of every `c6Msg n` (independent of the body). -/
def c6Attrs : List AttrEntry := buildMessageAttributes ['h'] (c6Msg 0) 1

/-- Serialized size of the `c6Msg` request at empty body. -/
def c6Base : Nat := requestSizeBytes c6Attrs ['t'] []

set_option maxRecDepth 8000 in
theorem c6Base_small : c6Base ≤ 262143 := by decide

theorem c6Msg_size (n : Nat) :
    requestSizeBytes (buildMessageAttributes ['h'] (c6Msg n) ((c6Msg n).checksum.getD 0))
      ['t'] (c6Msg n).message = c6Base + n := by
  have hattrs : buildMessageAttributes ['h'] (c6Msg n) ((c6Msg n).checksum.getD 0) = c6Attrs := rfl
  rw [hattrs]
  show requestSizeBytes c6Attrs ['t'] (List.replicate n 'a') = c6Base + n
  rw [requestSizeBytes_replicate]
  rfl

theorem c6Msg_replicate_ne_nil (n : Nat) (h : 0 < n) : (c6Msg n).message ≠ [] := by
  show List.replicate n 'a' ≠ []
  intro hEq
  have := congrArg List.length hEq
  simp at this
  omega

set_option maxRecDepth 8000 in
/-- Witness for C6: with this publisher configuration a body one byte over
the boundary fails the size check and one at the boundary passes it. -/
theorem C6_size_ceiling_witness :
    (dispatch ['t'] ['h'] (c6Msg (262145 - c6Base)) =
      .error (.invalidEventSize "json message exceeded limit of 256KB".toList)) ∧
    (∃ r, dispatch ['t'] ['h'] (c6Msg (262144 - c6Base)) = .ok r) := by
  have hbase := c6Base_small
  constructor
  · have h := C6_size_ceiling ['t'] ['h'] (c6Msg (262145 - c6Base))
      (by decide) (by decide) (by decide)
      (c6Msg_replicate_ne_nil _ (by omega)) (by decide)
    exact h.1.mpr (by rw [c6Msg_size]; omega)
  · have h := C6_size_ceiling ['t'] ['h'] (c6Msg (262144 - c6Base))
      (by decide) (by decide) (by decide)
      (c6Msg_replicate_ne_nil _ (by omega)) (by decide)
    exact h.2 (by rw [c6Msg_size]; omega)

/-! ## Consumer: `mapAttributes` and `getAttributes`

`mapAttributesV2` embeds the `@aws-sdk` revision (body text from
`data.Message`); `mapAttributesTs` embeds the `src/index.ts` revision
(body text from a `message` attribute, and the `groupId` read guarded by
the presence of `id`).  Both return `Except`: `.error` models a thrown
`TypeError`/`SyntaxError`.  Attribute maps are keyed lists of
`{Value: string}` entries, as in the revisions' type annotations. -/

/-- The parsed notification body as consumed by `mapAttributes`:
`Message` (possibly `undefined`) and the `MessageAttributes` map of
`name ↦ Value`. -/
structure NotificationData where
  message : Option Str
  attrs : List (Str × Str)
deriving DecidableEq

/-- JavaScript property lookup on the attribute map. -/
def lookupAttr : List (Str × Str) → Str → Option Str
  | [], _ => none
  | (k, v) :: t, name => if k = name then some v else lookupAttr t name

/-- The message a consumer receives (the library's `Message` as built by
`mapAttributes`): `checksum` is `Number(...)` of a string (`none` = `NaN`),
`message` may be `undefined`. -/
structure ConsumedMessage where
  type : Str
  source : Str
  checksum : Option Int
  message : Option Str
  id : Option Str := none
  uri : Option Str := none
  json : Option Json := none
  transactionId : Option Str := none
  groupId : Option Str := none
deriving DecidableEq

/-- `Number(str)` restricted to integer numerals: empty string is `0`,
a full optionally-signed digit run is its value, anything else `NaN`. -/
def jsNumberOfString (s : Str) : Option Int :=
  if s = [] then some 0
  else match parseInt s with
    | some (i, []) => some i
    | _ => none

/-- Read `attrs.name.Value`; a missing entry throws
(`TypeError: reading Value of undefined`). -/
def requireAttr (attrs : List (Str × Str)) (name : Str) : Except Str Str :=
  match lookupAttr attrs name with
  | some v => .ok v
  | none => .error ("TypeError: cannot read Value of undefined attribute ".toList ++ name)

/-- `mapAttributes` of the `@aws-sdk` revision: mandatory `type`, `source`,
`checksum` (via `Number`), body text from `data.Message`; optional `id`,
`uri`, `json` (decoded — a decode failure throws), `transactionId`,
`groupId`. -/
def mapAttributesV2 (data : NotificationData) : Except Str ConsumedMessage := do
  let t ← requireAttr data.attrs "type".toList
  let src ← requireAttr data.attrs "source".toList
  let ck ← requireAttr data.attrs "checksum".toList
  let base : ConsumedMessage :=
    {type := t, source := src, checksum := jsNumberOfString ck, message := data.message}
  let m1 := match lookupAttr data.attrs "id".toList with
    | some v => {base with id := some v}
    | none => base
  let m2 := match lookupAttr data.attrs "uri".toList with
    | some v => {m1 with uri := some v}
    | none => m1
  let m3 ← match lookupAttr data.attrs "json".toList with
    | some jv =>
      match decodeJson jv with
      | some j => Except.ok {m2 with json := some j}
      | none => Except.error "SyntaxError: JSON.parse failed for json attribute".toList
    | none => Except.ok m2
  let m4 := match lookupAttr data.attrs "transactionId".toList with
    | some v => {m3 with transactionId := some v}
    | none => m3
  let m5 := match lookupAttr data.attrs "groupId".toList with
    | some v => {m4 with groupId := some v}
    | none => m4
  pure m5

/-- `mapAttributes` of the `src/index.ts` revision: additionally requires a
`message` attribute for the body text, and — as written in the source —
reads `groupId.Value` whenever `id` is present (`if (data.MessageAttributes.id)
{ message.groupId = data.MessageAttributes.groupId.Value }`), which throws
when `groupId` is absent. -/
def mapAttributesTs (attrs : List (Str × Str)) : Except Str ConsumedMessage := do
  let t ← requireAttr attrs "type".toList
  let src ← requireAttr attrs "source".toList
  let ck ← requireAttr attrs "checksum".toList
  let msgv ← requireAttr attrs "message".toList
  let base : ConsumedMessage :=
    {type := t, source := src, checksum := jsNumberOfString ck, message := some msgv}
  let m1 := match lookupAttr attrs "id".toList with
    | some v => {base with id := some v}
    | none => base
  let m2 := match lookupAttr attrs "uri".toList with
    | some v => {m1 with uri := some v}
    | none => m1
  let m3 ← match lookupAttr attrs "json".toList with
    | some jv =>
      match decodeJson jv with
      | some j => Except.ok {m2 with json := some j}
      | none => Except.error "SyntaxError: JSON.parse failed for json attribute".toList
    | none => Except.ok m2
  let m4 := match lookupAttr attrs "transactionId".toList with
    | some v => {m3 with transactionId := some v}
    | none => m3
  let m5 ← if (lookupAttr attrs "id".toList).isSome then
      match lookupAttr attrs "groupId".toList with
      | some g => Except.ok {m4 with groupId := some g}
      | none => Except.error "TypeError: cannot read Value of undefined attribute groupId".toList
    else Except.ok m4
  pure m5

/-- A successful dispatch produced exactly the built attribute map and the
message body. -/
theorem dispatch_ok_inv (topic apiHost : Str) (m : Message) (r : PublishRequest)
    (hdisp : dispatch topic apiHost m = .ok r) :
    ∃ c, m.checksum = some c ∧
      r.messageAttributes = buildMessageAttributes apiHost m c ∧
      r.body = m.message := by
  rw [dispatch.eq_def] at hdisp
  split at hdisp
  · exact absurd hdisp (by simp)
  · split at hdisp
    · exact absurd hdisp (by simp)
    · next c hc =>
      refine ⟨c, hc, ?_⟩
      repeat' first
        | (injection hdisp with h
           subst h
           exact ⟨rfl, rfl⟩)
        | (simp only [reduceCtorEq] at hdisp)
        | split at hdisp

/-- The SNS→SQS relay of a published request, as consumed by
`mapAttributes`: `Message` is the body, and each attribute's `StringValue`
arrives as its `Value`. -/
def relayEnvelope (r : PublishRequest) : NotificationData :=
  {message := some r.body, attrs := r.messageAttributes.map fun e => (e.name, e.stringValue)}

theorem jsNumber_intToChars (c : Int) : jsNumberOfString (intToChars c) = some c := by
  obtain ⟨ch, t, hct, _⟩ := intToChars_head c
  have hne : intToChars c ≠ [] := by rw [hct]; exact List.cons_ne_nil _ _
  rw [jsNumberOfString, if_neg hne]
  have := parseInt_intToChars c [] trivial
  rw [List.append_nil] at this
  rw [this]

theorem lookupAttr_skip_opt (b : Bool) (k : Str) (v : Str) (rest : List (Str × Str))
    (n : Str) (hk : k ≠ n) :
    lookupAttr ((if b then [(k, v)] else []) ++ rest) n = lookupAttr rest n := by
  cases b <;> simp [lookupAttr, hk]

theorem except_ok_bind {e a b : Type} (x : a) (f : a → Except e b) :
    (Except.ok x >>= f) = f x := rfl

/-- C7: a message published with a type, numeric checksum, source and a
(truthy) json payload, relayed to a queue and decoded by the consumer's
`mapAttributes`, yields an equivalent `Message`: `type` and `source` as the
original strings, `checksum` as the original number (not a string), and
`json` as the original structured value (decoded, not its base64 string). -/
theorem C7_attribute_roundtrip (topic apiHost : Str) (m : Message) (r : PublishRequest)
    (c : Int) (j : Json)
    (hck : m.checksum = some c)
    (hj : m.json = some j)
    (hjt : j.jsTruthy = true)
    (hdisp : dispatch topic apiHost m = .ok r) :
    ∃ cm, mapAttributesV2 (relayEnvelope r) = .ok cm ∧
      cm.type = m.type ∧ cm.source = m.source ∧
      cm.checksum = some c ∧ cm.json = some j := by
  obtain ⟨c', hc', hattrs, hbody⟩ := dispatch_ok_inv topic apiHost m r hdisp
  rw [hck] at hc'
  injection hc' with hc'
  subst hc'
  have hjt' : jsTruthyOptJson m.json = true := by
    rw [hj]
    exact hjt
  have henv : relayEnvelope r =
      { message := some m.message,
        attrs := ("type".toList, m.type) :: ("checksum".toList, intToChars c) ::
          ("source".toList, m.source) ::
          ((if jsTruthyOpt m.uri then [("uri".toList, apiHost ++ m.uri.getD [])] else []) ++
           (if jsTruthyOpt m.id then [("id".toList, m.id.getD [])] else []) ++
           [("json".toList, encodeJson j)]) } := by
    rw [relayEnvelope, hattrs, hbody, buildMessageAttributes, hjt', hj]
    by_cases bu : jsTruthyOpt m.uri <;> by_cases bi : jsTruthyOpt m.id <;>
      simp [bu, bi]
  rw [henv]
  by_cases bu : jsTruthyOpt m.uri <;> by_cases bi : jsTruthyOpt m.id <;>
    simp +decide [bu, bi, mapAttributesV2, requireAttr, lookupAttr,
      except_ok_bind, jsNumber_intToChars, codec_roundtrip]

/-- The attribute round-trip scenario of the spec:
`{type: ORDERS_CHECKSUM, checksum: 1, source: "svc", json: {a: 1}}`. -/
def c7Msg : Message :=
  {type := "ORDERS_CHECKSUM".toList, source := "svc".toList, checksum := some 1,
   message := ['m'], json := some (Json.obj (.cons ['a'] (.num 1) .nil))}

/-- The request `dispatch` builds for `c7Msg`. -/
def c7Req : PublishRequest :=
  {messageAttributes := buildMessageAttributes ['h'] c7Msg 1, topicArn := ['t'],
   body := ['m'], messageGroupId := none, messageDeduplicationId := none}

set_option maxRecDepth 8000 in
/-- Witness for C7 at the spec's concrete message. -/
theorem C7_attribute_roundtrip_witness :
    ∃ cm, mapAttributesV2 (relayEnvelope c7Req) = .ok cm ∧
      cm.type = c7Msg.type ∧ cm.source = c7Msg.source ∧
      cm.checksum = some 1 ∧ cm.json = some (Json.obj (.cons ['a'] (.num 1) .nil)) :=
  C7_attribute_roundtrip ['t'] ['h'] c7Msg c7Req 1 (Json.obj (.cons ['a'] (.num 1) .nil))
    rfl rfl (by decide) (by decide)

/-! ## Consumer: `getAttributes` (envelope shape detection) -/

/-- What `getAttributes` returns: the first element of a storage-event
`Records` array (verbatim raw JSON, cast to `Message` by the source), the
JavaScript `undefined` produced by indexing into a truthy non-record value,
or a decoded/placeholder message. -/
inductive GetAttrsResult where
  | record (j : Json)
  | undef
  | msg (m : ConsumedMessage)
deriving DecidableEq

/-- The placeholder returned when no recognized envelope shape matches:
type empty, checksum zero. -/
def emptyConsumedMessage : ConsumedMessage :=
  {type := [], source := [], checksum := some 0, message := some []}

/-- The `name ↦ Value` pairs of a parsed `MessageAttributes` object (only
string-typed `Value`s are represented in the model). -/
def attrPairs : JsonObj → List (Str × Str)
  | .nil => []
  | .cons k v t =>
    match v.objGet "Value".toList with
    | some (.str s) => (k, s) :: attrPairs t
    | _ => attrPairs t

/-- The parsed notification body viewed as `mapAttributes` input. -/
def toNotificationData (body : Json) : NotificationData :=
  {message :=
    match body.objGet "Message".toList with
    | some (.str s) => some s
    | _ => none,
   attrs :=
    match body.objGet "MessageAttributes".toList with
    | some (.obj fields) => attrPairs fields
    | _ => []}

/-- The notification branch of `getAttributes`: handle `MessageAttributes`
when truthy, otherwise return the placeholder. -/
def getAttributesRest (bodyJson : Json) : Except Str GetAttrsResult :=
  match bodyJson.objGet "MessageAttributes".toList with
  | some mattrs =>
    if mattrs.jsTruthy then (mapAttributesV2 (toNotificationData bodyJson)).map .msg
    else .ok (.msg emptyConsumedMessage)
  | none => .ok (.msg emptyConsumedMessage)

/-- `getAttributes` of the `@aws-sdk` revision: a falsy body yields the
placeholder; otherwise the body is `JSON.parse`d (a parse failure throws);
a truthy `Records` value yields `Records[0]`; a truthy `MessageAttributes`
is decoded by `mapAttributes`; anything else yields the placeholder. -/
def getAttributesV2 (body : Option Str) : Except Str GetAttrsResult :=
  match body with
  | none => .ok (.msg emptyConsumedMessage)
  | some s =>
    if s.isEmpty then .ok (.msg emptyConsumedMessage)
    else match parseTop s with
      | none => .error "SyntaxError: Unexpected token in JSON".toList
      | some bodyJson =>
        match bodyJson.objGet "Records".toList with
        | some records =>
          if records.jsTruthy then
            match records with
            | .arr (.cons r _) => .ok (.record r)
            | _ => .ok .undef
          else getAttributesRest bodyJson
        | none => getAttributesRest bodyJson

/-- C8: for every raw message body that parses, the consumer's envelope
decoder returns the first element of the body's `Records` array verbatim
when that field holds a (non-empty) array; and when the body matches none
of the recognized shapes (no truthy `Records`, no truthy
`MessageAttributes`), it returns the placeholder message with empty type
and checksum zero instead of throwing. -/
theorem C8_shape_detection (body : Str) (bodyJson : Json)
    (hne : body ≠ [])
    (hparse : parseTop body = some bodyJson) :
    (∀ r rest, bodyJson.objGet "Records".toList = some (.arr (.cons r rest)) →
      getAttributesV2 (some body) = .ok (.record r)) ∧
    ((∀ rv, bodyJson.objGet "Records".toList = some rv → rv.jsTruthy = false) →
     (∀ mv, bodyJson.objGet "MessageAttributes".toList = some mv → mv.jsTruthy = false) →
      getAttributesV2 (some body) = .ok (.msg emptyConsumedMessage) ∧
        emptyConsumedMessage.type = [] ∧ emptyConsumedMessage.checksum = some 0) := by
  have hne' : body.isEmpty = false := by
    cases hb : body with
    | nil => exact absurd rfl (hb ▸ hne)
    | cons a l => rfl
  constructor
  · intro r rest hrec
    simp only [getAttributesV2, hne', Bool.false_eq_true, if_false, hparse, hrec,
      Json.jsTruthy, if_true]
  · intro hrec hmat
    refine ⟨?_, rfl, rfl⟩
    have hrest : getAttributesRest bodyJson = .ok (.msg emptyConsumedMessage) := by
      cases hm : bodyJson.objGet "MessageAttributes".toList with
      | none => simp only [getAttributesRest, hm]
      | some mv =>
        simp only [getAttributesRest, hm, hmat mv hm, Bool.false_eq_true, if_false]
    cases hr : bodyJson.objGet "Records".toList with
    | none =>
      simp only [getAttributesV2, hne', Bool.false_eq_true, if_false, hparse, hr]
      exact hrest
    | some rv =>
      simp only [getAttributesV2, hne', Bool.false_eq_true, if_false, hparse, hr,
        hrec rv hr]
      exact hrest

set_option maxRecDepth 8000 in
/-- Witness for C8: the spec's storage-event body and a body matching no
recognized shape. -/
theorem C8_shape_detection_witness :
    (getAttributesV2 (some "\x7b\"Records\":[\x7b\"foo\":1\x7d]\x7d".toList) =
      .ok (.record (Json.obj (.cons "foo".toList (.num 1) .nil)))) ∧
    (getAttributesV2 (some "\x7b\"x\":1\x7d".toList) = .ok (.msg emptyConsumedMessage) ∧
      emptyConsumedMessage.type = [] ∧ emptyConsumedMessage.checksum = some 0) :=
  ⟨(C8_shape_detection "\x7b\"Records\":[\x7b\"foo\":1\x7d]\x7d".toList
      (Json.obj (.cons "Records".toList
        (.arr (.cons (.obj (.cons "foo".toList (.num 1) .nil)) .nil)) .nil))
      (by decide) (by decide)).1
      (Json.obj (.cons "foo".toList (.num 1) .nil)) .nil (by decide),
   (C8_shape_detection "\x7b\"x\":1\x7d".toList (Json.obj (.cons ['x'] (.num 1) .nil))
      (by decide) (by decide)).2
      (by intro rv h; cases h) (by intro mv h; cases h)⟩

theorem except_error_bind {e a b : Type} (err : e) (f : a → Except e b) :
    (Except.error err >>= f) = Except.error err := rfl

/-- C10: the consumer's `mapAttributes` is not total over
notification-shaped bodies.  In both revisions an input whose attribute
map lacks the `type`, `source` or `checksum` entry makes `mapAttributes`
throw (`isOk = false`, the `Except.error` of the model); in the
`src/index.ts` revision an input lacking the `message` entry, or containing
an `id` entry but no `groupId` entry, also makes it throw — no `Message`
or placeholder is returned. -/
theorem C10_mapAttributes_partiality :
    (∀ data : NotificationData, lookupAttr data.attrs "type".toList = none →
      (mapAttributesV2 data).isOk = false ∧ (mapAttributesTs data.attrs).isOk = false) ∧
    (∀ data : NotificationData, lookupAttr data.attrs "source".toList = none →
      (mapAttributesV2 data).isOk = false ∧ (mapAttributesTs data.attrs).isOk = false) ∧
    (∀ data : NotificationData, lookupAttr data.attrs "checksum".toList = none →
      (mapAttributesV2 data).isOk = false ∧ (mapAttributesTs data.attrs).isOk = false) ∧
    (∀ attrs : List (Str × Str), lookupAttr attrs "message".toList = none →
      (mapAttributesTs attrs).isOk = false) ∧
    (∀ attrs : List (Str × Str), (lookupAttr attrs "id".toList).isSome →
      lookupAttr attrs "groupId".toList = none →
      (mapAttributesTs attrs).isOk = false) := by
  have hV2 : ∀ data : NotificationData,
      (lookupAttr data.attrs "type".toList = none ∨
       lookupAttr data.attrs "source".toList = none ∨
       lookupAttr data.attrs "checksum".toList = none) →
      (mapAttributesV2 data).isOk = false := by
    intro data hcase
    cases h1 : lookupAttr data.attrs "type".toList with
    | none => simp only [mapAttributesV2, requireAttr, eq_self_iff_true, if_true, h1, except_error_bind, Except.isOk, Except.toBool]
    | some t =>
      cases h2 : lookupAttr data.attrs "source".toList with
      | none =>
        simp only [mapAttributesV2, requireAttr, eq_self_iff_true, if_true, h1, h2, except_ok_bind, except_error_bind, Except.isOk, Except.toBool]
      | some src =>
        cases h3 : lookupAttr data.attrs "checksum".toList with
        | none =>
          simp only [mapAttributesV2, requireAttr, eq_self_iff_true, if_true, h1, h2, h3, except_ok_bind, except_error_bind,
            Except.isOk, Except.toBool]
        | some ck =>
          exfalso
          rcases hcase with h | h | h
          · rw [h1] at h; cases h
          · rw [h2] at h; cases h
          · rw [h3] at h; cases h
  have hTs : ∀ attrs : List (Str × Str),
      (lookupAttr attrs "type".toList = none ∨
       lookupAttr attrs "source".toList = none ∨
       lookupAttr attrs "checksum".toList = none ∨
       lookupAttr attrs "message".toList = none ∨
       ((lookupAttr attrs "id".toList).isSome ∧ lookupAttr attrs "groupId".toList = none)) →
      (mapAttributesTs attrs).isOk = false := by
    intro attrs hcase
    cases h1 : lookupAttr attrs "type".toList with
    | none => simp only [mapAttributesTs, requireAttr, eq_self_iff_true, if_true, h1, except_error_bind, Except.isOk, Except.toBool]
    | some t =>
      cases h2 : lookupAttr attrs "source".toList with
      | none =>
        simp only [mapAttributesTs, requireAttr, eq_self_iff_true, if_true, h1, h2, except_ok_bind, except_error_bind, Except.isOk, Except.toBool]
      | some src =>
        cases h3 : lookupAttr attrs "checksum".toList with
        | none =>
          simp only [mapAttributesTs, requireAttr, eq_self_iff_true, if_true, h1, h2, h3, except_ok_bind, except_error_bind,
            Except.isOk, Except.toBool]
        | some ck =>
          cases h4 : lookupAttr attrs "message".toList with
          | none =>
            simp only [mapAttributesTs, requireAttr, eq_self_iff_true, if_true, h1, h2, h3, h4, except_ok_bind,
              except_error_bind, Except.isOk, Except.toBool]
          | some msgv =>
            obtain ⟨hid, hgr⟩ : (lookupAttr attrs "id".toList).isSome ∧
                lookupAttr attrs "groupId".toList = none := by
              rcases hcase with h | h | h | h | h
              · rw [h1] at h; cases h
              · rw [h2] at h; cases h
              · rw [h3] at h; cases h
              · rw [h4] at h; cases h
              · exact h
            cases h6 : lookupAttr attrs "json".toList with
            | none =>
              simp only [mapAttributesTs, requireAttr, eq_self_iff_true, if_true, h1, h2, h3, h4, h6, hid, hgr,
                except_ok_bind, except_error_bind, Except.isOk, Except.toBool]
            | some jv =>
              cases h8 : decodeJson jv with
              | none =>
                simp only [mapAttributesTs, requireAttr, eq_self_iff_true, if_true, h1, h2, h3, h4, h6, h8,
                  except_ok_bind, except_error_bind, Except.isOk, Except.toBool]
              | some j =>
                simp only [mapAttributesTs, requireAttr, eq_self_iff_true, if_true, h1, h2, h3, h4, h6, h8, hid, hgr,
                  except_ok_bind, except_error_bind, Except.isOk, Except.toBool]
  exact ⟨fun data h => ⟨hV2 data (Or.inl h), hTs data.attrs (Or.inl h)⟩,
    fun data h => ⟨hV2 data (Or.inr (Or.inl h)), hTs data.attrs (Or.inr (Or.inl h))⟩,
    fun data h => ⟨hV2 data (Or.inr (Or.inr h)), hTs data.attrs (Or.inr (Or.inr (Or.inl h)))⟩,
    fun attrs h => hTs attrs (Or.inr (Or.inr (Or.inr (Or.inl h)))),
    fun attrs hid hgr => hTs attrs (Or.inr (Or.inr (Or.inr (Or.inr ⟨hid, hgr⟩))))⟩

/-- Witness for C10 at concrete attribute maps missing each entry. -/
theorem C10_mapAttributes_partiality_witness :
    ((mapAttributesV2 ⟨none, [("source".toList, ['s']), ("checksum".toList, ['1'])]⟩).isOk = false ∧
      (mapAttributesTs [("source".toList, ['s']), ("checksum".toList, ['1'])]).isOk = false) ∧
    ((mapAttributesV2 ⟨none, [("type".toList, ['t']), ("checksum".toList, ['1'])]⟩).isOk = false ∧
      (mapAttributesTs [("type".toList, ['t']), ("checksum".toList, ['1'])]).isOk = false) ∧
    ((mapAttributesV2 ⟨none, [("type".toList, ['t']), ("source".toList, ['s'])]⟩).isOk = false ∧
      (mapAttributesTs [("type".toList, ['t']), ("source".toList, ['s'])]).isOk = false) ∧
    ((mapAttributesTs [("type".toList, ['t']), ("source".toList, ['s']),
        ("checksum".toList, ['1'])]).isOk = false) ∧
    ((mapAttributesTs [("type".toList, ['t']), ("source".toList, ['s']),
        ("checksum".toList, ['1']), ("message".toList, ['m']),
        ("id".toList, ['1'])]).isOk = false) :=
  ⟨C10_mapAttributes_partiality.1 ⟨none, [("source".toList, ['s']), ("checksum".toList, ['1'])]⟩
      (by decide),
   C10_mapAttributes_partiality.2.1 ⟨none, [("type".toList, ['t']), ("checksum".toList, ['1'])]⟩
      (by decide),
   C10_mapAttributes_partiality.2.2.1 ⟨none, [("type".toList, ['t']), ("source".toList, ['s'])]⟩
      (by decide),
   C10_mapAttributes_partiality.2.2.2.1 [("type".toList, ['t']), ("source".toList, ['s']),
      ("checksum".toList, ['1'])] (by decide),
   C10_mapAttributes_partiality.2.2.2.2 [("type".toList, ['t']), ("source".toList, ['s']),
      ("checksum".toList, ['1']), ("message".toList, ['m']), ("id".toList, ['1'])]
      (by decide) (by decide)⟩

/-! ## The bounded poll loop (`_poll` / `pollStart`)

The recursive loop shared by the bounded-poll revisions:
`_poll(processMessage, n, t, params)` returns immediately when `t >= n`,
otherwise performs one receive (`wait`), stops on an empty batch, and
recurses with `t + 1`.  The model abstracts the transport as
`recv : Nat → Except Str Nat` giving the batch size of the k-th receive
call (`.error` models a rejected receive), and returns the number of
receive calls performed. -/
def pollRun (recv : Nat → Except Str Nat) (n t : Nat) : Except Str Nat :=
  if t ≥ n then .ok 0
  else match recv t with
    | .error e => .error e
    | .ok batchLen =>
      if batchLen = 0 then .ok 1
      else (pollRun recv n (t + 1)).map (· + 1)
termination_by n - t
decreasing_by simp_wf; omega

/-- The exported `poll` wrapper of `src/src/index.ts` (lines 516–523):
`poll(processMessage, 0, params?.maxIterations ?? 10, …)` — it passes `0`
as `n` and `maxIterations` as `t`. -/
def pollTs (recv : Nat → Except Str Nat) (maxIterations : Nat) : Except Str Nat :=
  pollRun recv 0 maxIterations

/-- The exported `poll` wrapper of the `@aws-sdk` revision (and of
`src/index.js`): `_poll(processMessage, maxIterations, 0, …)`. -/
def pollV2 (recv : Nat → Except Str Nat) (maxIterations : Nat) : Except Str Nat :=
  pollRun recv maxIterations 0

theorem pollRun_stop (recv : Nat → Except Str Nat) (n t : Nat) (h : t ≥ n) :
    pollRun recv n t = .ok 0 := by
  rw [pollRun]
  simp [h]

theorem pollRun_step (recv : Nat → Except Str Nat) (n t : Nat) (h : t < n) :
    pollRun recv n t =
      match recv t with
      | .error e => .error e
      | .ok batchLen =>
        if batchLen = 0 then .ok 1
        else (pollRun recv n (t + 1)).map (· + 1) := by
  rw [pollRun]
  simp [Nat.not_le_of_lt h]

/-- C1 (code bug in `src/src/index.ts`): the `@aws-sdk` revision's bounded
poll behaves as specified — with a transport that always returns a
non-empty batch and `maxIterations = 3`, exactly 3 receive calls occur, and
with a transport whose 2nd receive returns an empty batch exactly 2 receive
calls occur, after which poll resolves.  The `src/src/index.ts` wrapper,
however, passes `(0, maxIterations)` instead of `(maxIterations, 0)` into
the loop whose guard is `t >= n`, so it resolves after 0 receive calls for
every `maxIterations`. -/
theorem C1_bounded_poll :
    pollV2 (fun _ => .ok 5) 3 = .ok 3 ∧
    pollV2 (fun k => .ok (if k = 0 then 5 else 0)) 3 = .ok 2 ∧
    pollTs (fun _ => .ok 5) 3 = .ok 0 ∧
    pollTs (fun _ => .ok 5) 10 = .ok 0 := by
  refine ⟨?_, ?_, ?_, ?_⟩
  · rw [pollV2, pollRun_step _ _ _ (by omega), pollRun_step _ _ _ (by omega),
      pollRun_step _ _ _ (by omega), pollRun_stop _ _ _ (by omega)]
    rfl
  · rw [pollV2, pollRun_step _ _ _ (by omega), pollRun_step _ _ _ (by omega)]
    rfl
  · rw [pollTs, pollRun_stop _ _ _ (by omega)]
  · rw [pollTs, pollRun_stop _ _ _ (by omega)]

/-! ## The handler-registry queue client (`SqsQueueClient`)

Embeds `mapSqsMessageToInternalMessage`, `handleMessage`,
`registerMessageHandler`, `deleteSqsMessage` and `pollOnceForMessages`.
The transport is abstracted: the receive call's result and the delete
call's per-message result are parameters; handlers are Lean functions.
`.error` values model thrown exceptions. -/

/-- A native SQS message attribute (`{DataType, StringValue?, BinaryValue?}`,
with binary payloads as byte lists). -/
structure NativeAttr where
  dataType : Str
  stringValue : Option Str := none
  binaryValue : Option (List Nat) := none
deriving DecidableEq

/-- A raw received SQS message. -/
structure SqsMessage where
  body : Option Str
  receiptHandle : Option Str
  messageAttributes : Option (List (Str × NativeAttr))
deriving DecidableEq

/-- A resolved attribute value (`string | number | object`); `raw` is the
unconverted value kept by the `as string` cast in the notification branch. -/
inductive AttrValue where
  | str (s : Str)
  | num (n : Option Int)
  | objVal (j : Json)
  | raw (j : Json)
deriving DecidableEq

/-- The client's internal message: routing type, resolved attributes and
parsed body. -/
structure InternalMessage where
  type : Str
  attrs : List (Str × AttrValue)
  body : Json
deriving DecidableEq

/-- `Number(x)` for a JSON value (a model of JavaScript coercion on the
values that occur here). -/
def jsNumberOfJson : Json → Option Int
  | .num n => some n
  | .str s => jsNumberOfString s
  | .boolean b => some (if b then 1 else 0)
  | .null => some 0
  | .arr _ => none
  | .obj _ => none

/-- `mapSqsAttributeToRecord`: resolve one native attribute; an unsupported
`DataType` (or an unparsable binary payload) throws. -/
def mapSqsAttributeToRecord (a : NativeAttr) : Except Str AttrValue :=
  if a.dataType = "String".toList then .ok (.str (a.stringValue.getD []))
  else if a.dataType = "Number".toList then
    .ok (.num (match a.stringValue with
      | some s => jsNumberOfString s
      | none => none))
  else if a.dataType = "Binary".toList then
    match (utf8Decode (a.binaryValue.getD [])).bind parseTop with
    | some j => .ok (.objVal j)
    | none => .error "SyntaxError: invalid binary attribute".toList
  else .error ("Unsupported data type: ".toList ++ a.dataType)

/-- `mapSnsAttributeToRecord`: resolve one relayed `{Type, Value}` pair;
binary values are not recoverable (the source returns `{}`), an
unsupported `Type` throws. -/
def mapSnsAttributeToRecord (v : Json) : Except Str AttrValue :=
  if v.objGet "Type".toList = some (.str "String".toList) then
    .ok (.raw ((v.objGet "Value".toList).getD .null))
  else if v.objGet "Type".toList = some (.str "Number".toList) then
    .ok (.num (match v.objGet "Value".toList with
      | some w => jsNumberOfJson w
      | none => none))
  else if v.objGet "Type".toList = some (.str "Binary".toList) then
    .ok (.objVal (.obj .nil))
  else .error "Unsupported data type".toList

/-- First-match lookup of a native attribute. -/
def nativeLookup : List (Str × NativeAttr) → Str → Option NativeAttr
  | [], _ => none
  | (k, a) :: t, name => if k = name then some a else nativeLookup t name

/-- Resolve a whole native attribute map, propagating the first thrown
error. -/
def mapAttrsListSqs : List (Str × NativeAttr) → Except Str (List (Str × AttrValue))
  | [] => .ok []
  | (k, a) :: t =>
    match mapSqsAttributeToRecord a with
    | .error e => .error e
    | .ok v => (mapAttrsListSqs t).map fun rest => (k, v) :: rest

/-- The entries of a parsed `MessageAttributes` object. -/
def objEntries : Json → List (Str × Json)
  | .obj fields => entriesOf fields
  | _ => []
where
  entriesOf : JsonObj → List (Str × Json)
    | .nil => []
    | .cons k v t => (k, v) :: entriesOf t

/-- Resolve a whole relayed attribute map. -/
def mapAttrsListSns : List (Str × Json) → Except Str (List (Str × AttrValue))
  | [] => .ok []
  | (k, v) :: t =>
    match mapSnsAttributeToRecord v with
    | .error e => .error e
    | .ok av => (mapAttrsListSns t).map fun rest => (k, av) :: rest

/-- `mapSqsMessageToInternalMessage`: `JSON.parse` the body (`"{}"` when
absent; a parse failure throws), detect the relayed-notification shape
(no native `Type` attribute and body `Type === "Notification"`), and
resolve the appropriate attribute map.  The routing type falls back to
`"UNKNOWN"`. -/
def mapSqsMessageToInternalMessage (msg : SqsMessage) : Except Str InternalMessage :=
  match parseTop (msg.body.getD "\x7b\x7d".toList) with
  | none => .error "SyntaxError: Unexpected token in JSON".toList
  | some messageBody =>
    if (msg.messageAttributes.bind fun l => nativeLookup l "Type".toList) = none ∧
        messageBody.objGet "Type".toList = some (.str "Notification".toList) then
      let snsAttrsJson := (messageBody.objGet "MessageAttributes".toList).getD (.obj .nil)
      let t : Str :=
        match (snsAttrsJson.objGet "type".toList).bind fun a => a.objGet "Value".toList with
        | some (.str s) => s
        | _ => "UNKNOWN".toList
      match mapAttrsListSns (objEntries snsAttrsJson) with
      | .error e => .error e
      | .ok attrs =>
        match parseTop (match messageBody.objGet "Message".toList with
          | some (.str s) => s
          | _ => "\x7b\x7d".toList) with
        | none => .error "SyntaxError: Unexpected token in JSON".toList
        | some body => .ok {type := t, attrs := attrs, body := body}
    else
      let t : Str :=
        match (msg.messageAttributes.bind fun l => nativeLookup l "type".toList) with
        | some a => a.stringValue.getD "UNKNOWN".toList
        | none => "UNKNOWN".toList
      match mapAttrsListSqs (msg.messageAttributes.getD []) with
      | .error e => .error e
      | .ok attrs => .ok {type := t, attrs := attrs, body := messageBody}

/-- A registered message handler: routing type, validation predicate and
handling action (`.error` models a thrown/rejected handler). -/
structure MessageHandler where
  type : Str
  validateMessage : InternalMessage → Bool
  handleMessage : InternalMessage → Except Str Unit

/-- The `messageHandlers` map, in insertion order. -/
def Registry := List (Str × MessageHandler)

/-- `Map.get`. -/
def registryGet : List (Str × MessageHandler) → Str → Option MessageHandler
  | [], _ => none
  | (k, h) :: t, name => if k = name then some h else registryGet t name

/-- `Map.has`. -/
def registryHas (r : List (Str × MessageHandler)) (t : Str) : Bool :=
  (registryGet r t).isSome

/-- `registerMessageHandler`: throws (second component) when a handler for
the type already exists, leaving the map unchanged; otherwise adds the one
binding. -/
def registerMessageHandler (r : List (Str × MessageHandler)) (h : MessageHandler) :
    List (Str × MessageHandler) × Option Str :=
  if registryHas r h.type then
    (r, some ("Message handler for type ".toList ++ h.type ++ " already exists".toList))
  else (r ++ [(h.type, h)], none)

/-- `handleMessage`: look up the handler (no handler throws), validate
(failure throws), then run the handler (its rejection propagates). -/
def handleMessageStep (handlers : List (Str × MessageHandler)) (msg : InternalMessage) :
    Except Str MessageHandler :=
  match registryGet handlers msg.type with
  | none => .error ("No handler found for message type ".toList ++ msg.type)
  | some handler =>
    if handler.validateMessage msg = false then
      .error "Invalid message".toList
    else
      match handler.handleMessage msg with
      | .ok _ => .ok handler
      | .error e => .error e

/-- What happened to one message's deletion. -/
inductive DeleteOutcome where
  | deleted
  | deleteErrorLogged (e : Str)
  | noReceiptHandle
deriving DecidableEq

/-- `deleteSqsMessage`: no receipt handle resolves without deleting; a
transport delete failure is caught and logged (the promise still
resolves). -/
def deleteSqsMessage (deleteResult : SqsMessage → Except Str Unit) (msg : SqsMessage) :
    DeleteOutcome :=
  match msg.receiptHandle with
  | some (_ :: _) =>
    match deleteResult msg with
    | .ok _ => .deleted
    | .error e => .deleteErrorLogged e
  | _ => .noReceiptHandle

/-- The per-message outcome inside `pollOnceForMessages`: either the
message was mapped, handled and its deletion attempted, or some step threw
and the error was caught and logged together with the raw message
(`"Error processing message. Skipping delete."`). -/
inductive MsgOutcome where
  | processed (d : DeleteOutcome)
  | failedLogged (err : Str) (raw : SqsMessage)
deriving DecidableEq

/-- The per-message `try { map; handle; delete } catch { log }` block. -/
def processOneMessage (handlers : List (Str × MessageHandler))
    (deleteResult : SqsMessage → Except Str Unit) (msg : SqsMessage) : MsgOutcome :=
  match mapSqsMessageToInternalMessage msg with
  | .error e => .failedLogged e msg
  | .ok mapped =>
    match handleMessageStep handlers mapped with
    | .error e => .failedLogged e msg
    | .ok _ => .processed (deleteSqsMessage deleteResult msg)

/-- The outcome of one `pollOnceForMessages` call. -/
inductive PollOutcome where
  | processed (outcomes : List MsgOutcome)
  | receiveErrorLogged (e : Str)
deriving DecidableEq

/-- `pollOnceForMessages`: a failing receive is caught and logged
(`"Error polling messages. Skipping and retrying."`) and the call
resolves; otherwise every received message is processed by its own
guarded block. -/
def pollOnceForMessages (handlers : List (Str × MessageHandler))
    (deleteResult : SqsMessage → Except Str Unit)
    (receiveResult : Except Str (List SqsMessage)) : PollOutcome :=
  match receiveResult with
  | .error e => .receiveErrorLogged e
  | .ok msgs => .processed (msgs.map (processOneMessage handlers deleteResult))

/-! ## C9: registration of duplicate handlers -/

instance : Inhabited MessageHandler :=
  ⟨{type := [], validateMessage := fun _ => false, handleMessage := fun _ => .ok ()}⟩

/-- `Map.get` returns `none` exactly when the type is not among the
registered keys. -/
theorem registryGet_eq_none (r : List (Str × MessageHandler)) (t : Str) :
    registryGet r t = none ↔ t ∉ r.map Prod.fst := by
  induction r with
  | nil => simp [registryGet]
  | cons p rest ih =>
    obtain ⟨k, h⟩ := p
    by_cases hk : k = t
    · subst hk
      simp [registryGet]
    · simp [registryGet, hk, ih, Ne.symm hk]

/-- A fold of `registerMessageHandler` preserves distinctness of the
registered keys. -/
theorem registerFold_nodup (hs : List MessageHandler) :
    ∀ s : List (Str × MessageHandler), (s.map Prod.fst).Nodup →
      (((hs.foldl (fun r hh => (registerMessageHandler r hh).1) s)).map Prod.fst).Nodup := by
  induction hs with
  | nil => intro s hnd; simpa using hnd
  | cons hh rest ih =>
    intro s hnd
    simp only [List.foldl_cons]
    apply ih
    unfold registerMessageHandler
    split
    · exact hnd
    · rename_i hhas
      have hnone : registryGet s hh.type = none := by
        cases hg : registryGet s hh.type with
        | none => rfl
        | some _ => exact absurd (by simp [registryHas, hg]) hhas
      have hnotin : hh.type ∉ s.map Prod.fst := (registryGet_eq_none s hh.type).1 hnone
      simp only [List.map_append, List.map_cons, List.map_nil]
      rw [List.nodup_append]
      exact ⟨hnd, List.nodup_singleton _, by
        intro a ha hb
        simp only [List.mem_singleton] at hb
        subst hb
        exact hnotin ha⟩

/-- C9: registering a handler for a type that already has one reports the
duplicate and leaves the registry unchanged; registering for a fresh type
appends exactly that one binding; consequently every sequence of register
calls starting from the empty registry keeps at most one handler per type
(all registered keys distinct). -/
theorem C9_duplicate_registration (r : List (Str × MessageHandler)) (h : MessageHandler) :
    (registryHas r h.type = true →
      registerMessageHandler r h =
        (r, some ("Message handler for type ".toList ++ h.type ++
          " already exists".toList))) ∧
    (registryHas r h.type = false →
      registerMessageHandler r h = (r ++ [(h.type, h)], none)) ∧
    ∀ hs : List MessageHandler,
      (((hs.foldl (fun s hh => (registerMessageHandler s hh).1) [])).map Prod.fst).Nodup := by
  refine ⟨fun hhas => ?_, fun hno => ?_, fun hs => ?_⟩
  · simp only [registerMessageHandler, hhas, if_true]
  · simp only [registerMessageHandler, hno, Bool.false_eq_true, if_false]
  · exact registerFold_nodup hs [] (by simp)

/-- A concrete handler used by the registration witness. -/
def c9Handler : MessageHandler :=
  { type := "ORDER_TOUCH".toList
  , validateMessage := fun _ => true
  , handleMessage := fun _ => .ok () }

/-- Witness: registering `c9Handler` into an empty registry adds its one
binding; registering it again reports the duplicate and leaves the
registry unchanged. -/
theorem C9_duplicate_registration_witness :
    registerMessageHandler [] c9Handler = ([(c9Handler.type, c9Handler)], none) ∧
    registerMessageHandler [(c9Handler.type, c9Handler)] c9Handler =
      ([(c9Handler.type, c9Handler)],
        some ("Message handler for type ".toList ++ c9Handler.type ++
          " already exists".toList)) :=
  ⟨by
    have h := (C9_duplicate_registration [] c9Handler).2.1 rfl
    simpa using h,
   (C9_duplicate_registration [(c9Handler.type, c9Handler)] c9Handler).1 rfl⟩

/-! ## C3: per-message fault isolation in `pollOnceForMessages` -/

/-- C3: in a received batch, a message for which decoding or
lookup/validation/handling throws yields only its own `failedLogged`
outcome carrying the raw message; every other message in the batch is
still processed independently (the batch is the pointwise map of the
per-message block), and a message whose mapping and handling succeed and
whose delete call succeeds is deleted. -/
theorem C3_batch_fault_isolation
    (handlers : List (Str × MessageHandler)) (del : SqsMessage → Except Str Unit)
    (pre post : List SqsMessage) (bad : SqsMessage) (e : Str)
    (hfail : mapSqsMessageToInternalMessage bad = .error e ∨
      ∃ m, mapSqsMessageToInternalMessage bad = .ok m ∧
        handleMessageStep handlers m = .error e) :
    (pollOnceForMessages handlers del (.ok (pre ++ bad :: post)) =
      .processed (pre.map (processOneMessage handlers del) ++
        .failedLogged e bad :: post.map (processOneMessage handlers del))) ∧
    ∀ (good : SqsMessage) (m : InternalMessage) (hnd : MessageHandler) (rh : Str),
      mapSqsMessageToInternalMessage good = .ok m →
      handleMessageStep handlers m = .ok hnd →
      good.receiptHandle = some rh → rh ≠ [] →
      del good = .ok () →
      processOneMessage handlers del good = .processed .deleted := by
  constructor
  · have hbad : processOneMessage handlers del bad = .failedLogged e bad := by
      rcases hfail with hmap | ⟨m, hmap, hstep⟩
      · simp only [processOneMessage, hmap]
      · simp only [processOneMessage, hmap, hstep]
    simp only [pollOnceForMessages, List.map_append, List.map_cons, hbad]
  · intro good m hnd rh hmap hstep hrh hne hdel
    cases rh with
    | nil => exact absurd rfl hne
    | cons c cs =>
      simp only [processOneMessage, hmap, hstep, deleteSqsMessage, hrh, hdel]

/-- The handler used by the fault-isolation witness: it rejects (throws on)
any body carrying a truthy `fail` field. -/
def c3HandlerA : MessageHandler :=
  { type := ['A']
  , validateMessage := fun _ => true
  , handleMessage := fun m =>
      if m.body.objGet "fail".toList = some (.boolean true) then .error "boom".toList
      else .ok () }

/-- The witness registry. -/
def c3Handlers : List (Str × MessageHandler) := [(c3HandlerA.type, c3HandlerA)]

/-- The witness delete transport: always succeeds. -/
def c3Delete : SqsMessage → Except Str Unit := fun _ => .ok ()

/-- First witness message: its handler will throw. -/
def c3Msg1 : SqsMessage :=
  { body := some "\x7b\"fail\":true\x7d".toList
  , receiptHandle := some "rh1".toList
  , messageAttributes :=
      some [("type".toList, {dataType := "String".toList, stringValue := some ['A']})] }

/-- Second witness message: handled and deleted normally. -/
def c3Msg2 : SqsMessage :=
  { body := some "\x7b\x7d".toList
  , receiptHandle := some "rh2".toList
  , messageAttributes :=
      some [("type".toList, {dataType := "String".toList, stringValue := some ['A']})] }

/-- The internal message the client maps `c3Msg1` to. -/
def c3Mapped1 : InternalMessage :=
  { type := ['A']
  , attrs := [("type".toList, .str ['A'])]
  , body := .obj (.cons "fail".toList (.boolean true) .nil) }

/-- The internal message the client maps `c3Msg2` to. -/
def c3Mapped2 : InternalMessage :=
  { type := ['A'], attrs := [("type".toList, .str ['A'])], body := .obj .nil }

set_option maxRecDepth 8000 in
/-- Witness: in the 2-message batch where handling the first message
throws, the poll outcome logs the first failure with its raw message and
still processes and deletes the second message. -/
theorem C3_batch_fault_isolation_witness :
    pollOnceForMessages c3Handlers c3Delete (.ok [c3Msg1, c3Msg2]) =
      .processed [.failedLogged "boom".toList c3Msg1, .processed .deleted] ∧
    processOneMessage c3Handlers c3Delete c3Msg2 = .processed .deleted := by
  have h := C3_batch_fault_isolation c3Handlers c3Delete [] [c3Msg2] c3Msg1 "boom".toList
      (Or.inr ⟨c3Mapped1, by decide, rfl⟩)
  have h2 : processOneMessage c3Handlers c3Delete c3Msg2 = .processed .deleted :=
    h.2 c3Msg2 c3Mapped2 c3HandlerA "rh2".toList (by decide) rfl rfl (by decide) rfl
  have h1 := h.1
  simp only [List.map_nil, List.map_cons, List.nil_append] at h1
  rw [h1, h2]
  exact ⟨rfl, h2⟩

/-! ## C4: what happens when the transport receive call fails -/

/-- C4 (counterexample to the claim as stated): in the bounded-poll
revisions (`src/src/index.ts` and the `@aws-sdk` one) a failing receive is
not caught anywhere in the poll chain — `wait` rejects and the error
propagates out of `poll`. -/
theorem C4_receive_error_propagates :
    pollV2 (fun _ => .error "boom".toList) 3 = .error "boom".toList := by
  rw [pollV2, pollRun_step _ _ _ (by omega)]

/-- C4 (amended): only the `SqsQueueClient` revision catches transport
receive failures — `pollOnceForMessages` converts a failing receive into a
logged degenerate outcome and resolves — while in the bounded-poll
revisions a failing first receive propagates out of the loop whenever at
least one iteration remains. -/
theorem C4_receive_error_caught :
    (∀ (handlers : List (Str × MessageHandler)) (del : SqsMessage → Except Str Unit)
        (e : Str),
      pollOnceForMessages handlers del (.error e) = .receiveErrorLogged e) ∧
    ∀ (recv : Nat → Except Str Nat) (n : Nat) (e : Str),
      0 < n → recv 0 = .error e → pollRun recv n 0 = .error e := by
  constructor
  · intro handlers del e
    rfl
  · intro recv n e hn hrecv
    rw [pollRun_step _ _ _ hn, hrecv]

/-- Witness: a receive failure reporting `boom` is absorbed and logged by
`pollOnceForMessages`, and the same failure propagates out of the bounded
poll run with 3 iterations remaining. -/
theorem C4_receive_error_caught_witness :
    pollOnceForMessages [] (fun _ => .ok ()) (.error "boom".toList) =
      .receiveErrorLogged "boom".toList ∧
    (0 < 3 ∧ pollRun (fun _ => .error "boom".toList) 3 0 = .error "boom".toList) :=
  ⟨C4_receive_error_caught.1 [] (fun _ => .ok ()) "boom".toList,
   by decide,
   C4_receive_error_caught.2 (fun _ => .error "boom".toList) 3 "boom".toList
     (by decide) rfl⟩
